import Mathlib

/-! # Verification development for the playback core of MPD (iplinux-mpd)

Shallow embedding of `src/pcm_volume.c` (the volume stage), of
`src/player_control.c` (the playback controller), of the duration report, the
main loop, the MIME table and the buffer alignment of
`src/decoder/ffmpeg_decoder_plugin.c` and of `playlist_list_open_uri` in
`src/playlist_list.c`, followed by the theorems that settle the claims about them.

Conventions of the embedding
* machine integers are `Int` with explicit two's-complement wrapping
  (`wrap8`, `wrap16`, `wrap32`, `wrap64`) at every place where C converts
  or could overflow;
* C division `/` on signed integers is `Int.tdiv` (truncation toward zero);
* a `(pointer, length)` pair is a list; `bufferSize` is the list's length;
* fatal exits (`g_error`, a failed `assert`) are `Except.error`;
* `float` and `double` values are exact rationals (they are only stored,
  compared with zero and read back);
* a `Song *` is `none` (NULL) or the address of a song, and the songs
  themselves are read through a memory `Nat → Song`, since the controller only
  borrows them.
-/

namespace MPD

/-! ## Machine arithmetic -/

/-- Conversion to `int8_t`. -/
def wrap8 (x : Int) : Int := (x + 128) % 256 - 128

/-- Conversion to `int16_t`. -/
def wrap16 (x : Int) : Int := (x + 32768) % 65536 - 32768

/-- Conversion to `int32_t` (also the result of `int` arithmetic). -/
def wrap32 (x : Int) : Int := (x + 2147483648) % 4294967296 - 2147483648

/-- Conversion to `int64_t`. -/
def wrap64 (x : Int) : Int :=
  (x + 9223372036854775808) % 18446744073709551616 - 9223372036854775808

/-- Smallest `int32_t`. -/
def INT32_MIN : Int := -2147483648

/-- Largest `int32_t`. -/
def INT32_MAX : Int := 2147483647

/-- Smallest `int64_t`. -/
def INT64_MIN : Int := -9223372036854775808

/-- Largest `int64_t`. -/
def INT64_MAX : Int := 9223372036854775807

/-- The value fits an `int32_t`. -/
def fits32 (x : Int) : Prop := INT32_MIN ≤ x ∧ x ≤ INT32_MAX

/-- The value fits an `int64_t`. -/
def fits64 (x : Int) : Prop := INT64_MIN ≤ x ∧ x ≤ INT64_MAX

instance (x : Int) : Decidable (fits32 x) := by unfold fits32; infer_instance

instance (x : Int) : Decidable (fits64 x) := by unfold fits64; infer_instance

deriving instance DecidableEq for Except

/-! ## Fatal exits -/

/-- Ways in which a call does not return normally. -/
inductive Fault where
  /-- `g_error(...)`: fatal log message, the process aborts. -/
  | g_error (bits : Nat)
  /-- A failed `assert(...)`. -/
  | assertion
  /-- The wait loop of `player_command` was not left within the rounds allowed. -/
  | no_ack
  deriving DecidableEq, Repr

/-! ## `pcm_volume.c` -/

/-- A byte of a PCM buffer (`char`). -/
abbrev Byte := Fin 256

/-- The fields of `struct audio_format` (audio_format.h). -/
structure audio_format where
  sample_rate : Nat
  bits : Nat
  channels : Nat
  deriving DecidableEq, Repr

/-- Modelled from the spec: the constant `PCM_VOLUME_1` of pcm_volume.h, which is
not among the sources; the spec fixes it: "integer volume v ∈ [0,1000]
(1000 = unity gain)". -/
def PCM_VOLUME_1 : Int := 1000

/-- Modelled from the spec: the helper `pcm_range` of pcm_utils.h, which is not
among the sources: "the result is clamped to the representable range for its
bit depth", the range of a signed `bits`-bit integer. -/
def pcm_range (sample : Int) (bits : Nat) : Int :=
  if sample < -(2 ^ (bits - 1)) then -(2 ^ (bits - 1))
  else if sample ≥ 2 ^ (bits - 1) then 2 ^ (bits - 1) - 1
  else sample

/-- The expression `(sample * volume + pcm_dither() + PCM_VOLUME_1 / 2) / PCM_VOLUME_1`
evaluated in `int32_t` arithmetic (8 and 16 bit paths); `d` is the value that
the call of `pcm_dither()` returned. -/
def scale32 (sample volume d : Int) : Int :=
  Int.tdiv (wrap32 (wrap32 (wrap32 (sample * volume) + d) + PCM_VOLUME_1 / 2)) PCM_VOLUME_1

/-- The same expression evaluated in `int64_t` arithmetic (24 bit path). -/
def scale64 (sample volume d : Int) : Int :=
  Int.tdiv (wrap64 (wrap64 (wrap64 (sample * volume) + d) + PCM_VOLUME_1 / 2)) PCM_VOLUME_1

/-- The function `pcm_volume_change_8(int8_t *buffer, unsigned num_samples, int volume)`.
`dither i` is the value returned by the `i`-th call of `pcm_dither()` (pcm_utils.h,
not among the sources) made from here on. -/
def pcm_volume_change_8 (dither : Nat → Int) :
    List Int → Nat → Int → List Int
  | buffer, 0, _ => buffer
  | [], _ + 1, _ => []
  | sample :: rest, num_samples + 1, volume =>
    wrap8 (pcm_range (scale32 sample volume (dither 0)) 8)
      :: pcm_volume_change_8 (fun i => dither (i + 1)) rest num_samples volume

/-- The function `pcm_volume_change_16(int16_t *buffer, unsigned num_samples, int volume)`. -/
def pcm_volume_change_16 (dither : Nat → Int) :
    List Int → Nat → Int → List Int
  | buffer, 0, _ => buffer
  | [], _ + 1, _ => []
  | sample :: rest, num_samples + 1, volume =>
    wrap16 (pcm_range (scale32 sample volume (dither 0)) 16)
      :: pcm_volume_change_16 (fun i => dither (i + 1)) rest num_samples volume

/-- The function `pcm_volume_change_24(int32_t *buffer, unsigned num_samples, int volume)`. -/
def pcm_volume_change_24 (dither : Nat → Int) :
    List Int → Nat → Int → List Int
  | buffer, 0, _ => buffer
  | [], _ + 1, _ => []
  | sample :: rest, num_samples + 1, volume =>
    wrap32 (pcm_range (scale64 sample volume (dither 0)) 24)
      :: pcm_volume_change_24 (fun i => dither (i + 1)) rest num_samples volume

/-- The byte holding the low 8 bits of an integer. -/
def byte_of (x : Int) : Byte := ⟨(x % 256).toNat, by omega⟩

/-- The `int8_t` seen through `(int8_t *)buffer`. -/
def load8 : List Byte → List Int
  | [] => []
  | b :: rest => wrap8 b.val :: load8 rest

/-- The bytes of an `int8_t` array. -/
def store8 : List Int → List Byte
  | [] => []
  | x :: rest => byte_of x :: store8 rest

/-- The `int16_t` seen through `(int16_t *)buffer`; `be` is the byte order of the
host (true: big endian). -/
def load16 (be : Bool) : List Byte → List Int
  | b0 :: b1 :: rest =>
    wrap16 (if be then 256 * b0.val + b1.val else b0.val + 256 * b1.val) :: load16 be rest
  | _ => []

/-- The bytes of an `int16_t` array in host byte order. -/
def store16 (be : Bool) : List Int → List Byte
  | [] => []
  | x :: rest =>
    (if be then [byte_of (x / 256), byte_of x] else [byte_of x, byte_of (x / 256)])
      ++ store16 be rest

/-- The `int32_t` seen through `(int32_t *)buffer`. -/
def load32 (be : Bool) : List Byte → List Int
  | b0 :: b1 :: b2 :: b3 :: rest =>
    wrap32 (if be then 16777216 * b0.val + 65536 * b1.val + 256 * b2.val + b3.val
            else b0.val + 256 * b1.val + 65536 * b2.val + 16777216 * b3.val)
      :: load32 be rest
  | _ => []

/-- The bytes of an `int32_t` array in host byte order. -/
def store32 (be : Bool) : List Int → List Byte
  | [] => []
  | x :: rest =>
    (if be then [byte_of (x / 16777216), byte_of (x / 65536), byte_of (x / 256), byte_of x]
     else [byte_of x, byte_of (x / 256), byte_of (x / 65536), byte_of (x / 16777216)])
      ++ store32 be rest

/-- The function `pcm_volume(char *buffer, int bufferSize, const struct audio_format *format,
int volume)`: the buffer after the call, or the fatal exit. `bufferSize` is
`buffer.length`; `memset(buffer, 0, bufferSize)` is the list of that many zero
bytes; bytes past the last whole sample are not touched. -/
def pcm_volume (be : Bool) (dither : Nat → Int) (buffer : List Byte)
    (format : audio_format) (volume : Int) : Except Fault (List Byte) :=
  let bufferSize := buffer.length
  if volume = PCM_VOLUME_1 then
    .ok buffer
  else if volume ≤ 0 then
    .ok (List.replicate bufferSize 0)
  else
    match format.bits with
    | 8 =>
      .ok (store8 (pcm_volume_change_8 dither (load8 buffer) bufferSize volume))
    | 16 =>
      .ok (store16 be (pcm_volume_change_16 dither
              (load16 be (buffer.take (2 * (bufferSize / 2)))) (bufferSize / 2) volume)
            ++ buffer.drop (2 * (bufferSize / 2)))
    | 24 =>
      .ok (store32 be (pcm_volume_change_24 dither
              (load32 be (buffer.take (4 * (bufferSize / 4)))) (bufferSize / 4) volume)
            ++ buffer.drop (4 * (bufferSize / 4)))
    | bits => .error (Fault.g_error bits)

/-- The samples that `pcm_volume` sees in a buffer of the given depth: the view
through its cast, over the whole samples that fit in the buffer. -/
def samples (be : Bool) (bits : Nat) (buffer : List Byte) : List Int :=
  match bits with
  | 8 => load8 buffer
  | 16 => load16 be (buffer.take (2 * (buffer.length / 2)))
  | 24 => load32 be (buffer.take (4 * (buffer.length / 4)))
  | _ => []

/-- The value that the loop body of `pcm_volume_change_8/16/24` hands to the
store for the sample `s`, the volume `v` and the dither value `d`. -/
def volume_sample (bits : Nat) (s v d : Int) : Int :=
  pcm_range (if bits = 24 then scale64 s v d else scale32 s v d) bits

/-- Rounding of `x / 1000` to the nearest integer (a tie goes up): the reading
of "rounded to the nearest integer" that the claims are compared with. -/
def round_nearest_1000 (x : Int) : Int := (x + 500) / 1000

/-- No step of `sample * volume + pcm_dither() + PCM_VOLUME_1 / 2` leaves the
accumulator type of the path: `int64_t` for depth 24, `int32_t` otherwise. -/
def accumulator_fits (bits : Nat) (s v d : Int) : Prop :=
  if bits = 24 then fits64 (s * v) ∧ fits64 (s * v + d) ∧ fits64 (s * v + d + 500)
  else fits32 (s * v) ∧ fits32 (s * v + d) ∧ fits32 (s * v + d + 500)

/-! ## `player_control.c` -/

/-- The type `enum player_state` (player_control.h): the enumerators used by the source. -/
inductive enum_player_state where
  | PLAYER_STATE_STOP
  | PLAYER_STATE_PAUSE
  | PLAYER_STATE_PLAY
  deriving DecidableEq, Repr

/-- The type `enum player_command` (player_control.h): the enumerators used by the source. -/
inductive enum_player_command where
  | PLAYER_COMMAND_NONE
  | PLAYER_COMMAND_EXIT
  | PLAYER_COMMAND_STOP
  | PLAYER_COMMAND_PLAY
  | PLAYER_COMMAND_PAUSE
  | PLAYER_COMMAND_SEEK
  | PLAYER_COMMAND_CLOSE_AUDIO
  | PLAYER_COMMAND_LOCK_QUEUE
  | PLAYER_COMMAND_UNLOCK_QUEUE
  deriving DecidableEq, Repr

/-- The error codes `PLAYER_ERROR_*` used by the source; `PLAYER_ERROR_NOERROR`
is the value 0 that `clearPlayerError` stores. -/
inductive enum_player_error where
  | PLAYER_ERROR_NOERROR
  | PLAYER_ERROR_FILE
  | PLAYER_ERROR_AUDIO
  | PLAYER_ERROR_SYSTEM
  | PLAYER_ERROR_UNKTYPE
  | PLAYER_ERROR_FILENOTFOUND
  deriving DecidableEq, Repr

/-- The type `enum player_queue_state`: the enumerators used by the source. -/
inductive enum_player_queue_state where
  | PLAYER_QUEUE_BLANK
  | PLAYER_QUEUE_FULL
  deriving DecidableEq, Repr

/-- The two values of `pc.queueLockState` used by the source. -/
inductive enum_player_queue_lock_state where
  | PLAYER_QUEUE_UNLOCKED
  | PLAYER_QUEUE_LOCKED
  deriving DecidableEq, Repr

open enum_player_state enum_player_command enum_player_error
  enum_player_queue_state enum_player_queue_lock_state

/-- The part of `struct tag` that the controller reads. -/
structure struct_tag where
  time : Int
  deriving DecidableEq, Repr

/-- The part of `Song` that the controller reads: `url` (`none` is NULL) and
`tag` (`none` is NULL). -/
structure Song where
  url : Option String
  tag : Option struct_tag
  deriving DecidableEq, Repr

/-- The type `struct player_control` (player_control.h): the fields that player_control.c
uses. `notify` counts the `notify_signal(&pc.notify)` calls made so far. -/
structure player_control where
  buffered_before_play : Nat
  notify : Nat
  command : enum_player_command
  state : enum_player_state
  error : enum_player_error
  queueState : enum_player_queue_state
  queueLockState : enum_player_queue_lock_state
  crossFade : Rat
  softwareVolume : Int
  fileTime : Int
  next_song : Option Nat
  errored_song : Option Nat
  seekWhere : Rat
  elapsedTime : Rat
  totalTime : Rat
  bitRate : Nat
  totalPlayTime : Rat
  sampleRate : Nat
  bits : Int
  channels : Int
  deriving DecidableEq, Repr

/-- What the decode worker does to the shared context during one
`wait_main_task()` of the caller; the argument is the number of rounds that
went before, so that every sequence of behaviours is a `Worker`. -/
abbrev Worker := Nat → player_control → player_control

/-- The global `pc` together with the history of the run: `rounds` counts the
completed `wait_main_task()` calls and `issued` lists the commands that
`player_command` stored, each with the context at the moment of the store. -/
structure World where
  pc : player_control
  rounds : Nat
  issued : List (enum_player_command × player_control)
  deriving DecidableEq, Repr

/-- The outcome of a call: what it returns (for a `void` function the world at
the return), or the fault and the world at that point. -/
abbrev Outcome (α : Type) := Except (Fault × World) α

/-- The world in which the outcome of a `void` function leaves the program. -/
def Outcome.world : Outcome World → World
  | .ok s => s
  | .error (_, s) => s

/-- The function `pc_init(buffered_before_play)`; `notify_init` resets the signal count. -/
def pc_init (buffered_before_play : Nat) (pc : player_control) : player_control :=
  { pc with
    buffered_before_play := buffered_before_play
    notify := 0
    command := PLAYER_COMMAND_NONE
    error := PLAYER_ERROR_NOERROR
    state := PLAYER_STATE_STOP
    queueState := PLAYER_QUEUE_BLANK
    queueLockState := PLAYER_QUEUE_UNLOCKED
    crossFade := 0
    softwareVolume := 1000 }

/-- The function `set_current_song(song)`. -/
def set_current_song (mem : Nat → Song) (song : Option Nat) (s : World) : Outcome World :=
  match song with
  | none => .error (Fault.assertion, s)
  | some a =>
    if (mem a).url = none then .error (Fault.assertion, s)
    else
      .ok { s with pc := { s.pc with
        fileTime := (match (mem a).tag with
          | some t => t.time
          | none => 0)
        next_song := some a } }

/-- One turn of the loop body of `player_command`: `notify_signal(&pc.notify)`
and `wait_main_task()`, during which the worker runs. -/
def worker_round (w : Worker) (s : World) : World :=
  { s with
    pc := w s.rounds { s.pc with notify := s.pc.notify + 1 }
    rounds := s.rounds + 1 }

/-- The loop `while (pc.command != PLAYER_COMMAND_NONE) { ... }` of
`player_command`, cut off after `fuel` turns. -/
def player_command_wait (w : Worker) : Nat → World → Outcome World
  | 0, s =>
    if s.pc.command = PLAYER_COMMAND_NONE then .ok s else .error (Fault.no_ack, s)
  | fuel + 1, s =>
    if s.pc.command = PLAYER_COMMAND_NONE then .ok s
    else player_command_wait w fuel (worker_round w s)

/-- The store `pc.command = cmd` of `player_command`, entered in the history. -/
def issue (cmd : enum_player_command) (s : World) : World :=
  { s with
    pc := { s.pc with command := cmd }
    issued := s.issued ++ [(cmd, { s.pc with command := cmd })] }

/-- The function `player_command(cmd)`. -/
def player_command (w : Worker) (fuel : Nat) (cmd : enum_player_command) (s : World) :
    Outcome World :=
  player_command_wait w fuel (issue cmd s)

/-- The function `playerPlay(song)`. -/
def playerPlay (w : Worker) (fuel : Nat) (mem : Nat → Song) (song : Option Nat) (s : World) :
    Outcome World :=
  if s.pc.queueLockState ≠ PLAYER_QUEUE_UNLOCKED then .error (Fault.assertion, s)
  else do
    let s ← (if s.pc.state ≠ PLAYER_STATE_STOP
      then player_command w fuel PLAYER_COMMAND_STOP s else .ok s)
    let s := { s with pc := { s.pc with queueState := PLAYER_QUEUE_BLANK } }
    let s ← set_current_song mem song s
    player_command w fuel PLAYER_COMMAND_PLAY s

/-- The function `playerWait()`. -/
def playerWait (w : Worker) (fuel : Nat) (s : World) : Outcome World := do
  let s ← player_command w fuel PLAYER_COMMAND_CLOSE_AUDIO s
  if s.pc.queueLockState ≠ PLAYER_QUEUE_UNLOCKED then .error (Fault.assertion, s)
  else do
    let s ← player_command w fuel PLAYER_COMMAND_CLOSE_AUDIO s
    .ok { s with pc := { s.pc with queueState := PLAYER_QUEUE_BLANK } }

/-- The function `playerKill()`. -/
def playerKill (w : Worker) (fuel : Nat) (s : World) : Outcome World :=
  player_command w fuel PLAYER_COMMAND_EXIT s

/-- The function `playerPause()`. -/
def playerPause (w : Worker) (fuel : Nat) (s : World) : Outcome World :=
  if s.pc.state ≠ PLAYER_STATE_STOP then player_command w fuel PLAYER_COMMAND_PAUSE s
  else .ok s

/-- The function `playerSetPause(pause_flag)`. -/
def playerSetPause (w : Worker) (fuel : Nat) (pause_flag : Int) (s : World) : Outcome World :=
  match s.pc.state with
  | PLAYER_STATE_STOP => .ok s
  | PLAYER_STATE_PLAY => if pause_flag ≠ 0 then playerPause w fuel s else .ok s
  | PLAYER_STATE_PAUSE => if pause_flag = 0 then playerPause w fuel s else .ok s

/-- The function `clearPlayerError()`. -/
def clearPlayerError (s : World) : World :=
  { s with pc := { s.pc with error := PLAYER_ERROR_NOERROR } }

/-- The function `queueSong(song)`. -/
def queueSong (mem : Nat → Song) (song : Option Nat) (s : World) : Outcome World :=
  if s.pc.queueState ≠ PLAYER_QUEUE_BLANK then .error (Fault.assertion, s)
  else do
    let s ← set_current_song mem song s
    .ok { s with pc := { s.pc with queueState := PLAYER_QUEUE_FULL } }

/-- The function `setQueueState(queueState)`. -/
def setQueueState (queueState : enum_player_queue_state) (s : World) : World :=
  { s with pc := { s.pc with queueState := queueState, notify := s.pc.notify + 1 } }

/-- The function `playerQueueLock()`. -/
def playerQueueLock (w : Worker) (fuel : Nat) (s : World) : Outcome World :=
  if s.pc.queueLockState ≠ PLAYER_QUEUE_UNLOCKED then .error (Fault.assertion, s)
  else do
    let s ← player_command w fuel PLAYER_COMMAND_LOCK_QUEUE s
    if s.pc.queueLockState ≠ PLAYER_QUEUE_LOCKED then .error (Fault.assertion, s)
    else .ok s

/-- The function `playerQueueUnlock()`. -/
def playerQueueUnlock (w : Worker) (fuel : Nat) (s : World) : Outcome World := do
  let s ← (if s.pc.queueLockState = PLAYER_QUEUE_LOCKED
    then player_command w fuel PLAYER_COMMAND_UNLOCK_QUEUE s else .ok s)
  if s.pc.queueLockState ≠ PLAYER_QUEUE_UNLOCKED then .error (Fault.assertion, s)
  else .ok s

/-- The function `playerSeek(song, seek_time)`; the value is the `int` returned. -/
def playerSeek (w : Worker) (fuel : Nat) (mem : Nat → Song) (song : Option Nat)
    (seek_time : Rat) (s : World) : Outcome (Int × World) :=
  if song = none then .error (Fault.assertion, s)
  else if s.pc.state = PLAYER_STATE_STOP then .ok (-1, s)
  else do
    let s ← (if s.pc.next_song ≠ song
      then set_current_song mem song s else .ok s)
    let s ← (if s.pc.error = PLAYER_ERROR_NOERROR
      then player_command w fuel PLAYER_COMMAND_SEEK
        { s with pc := { s.pc with seekWhere := seek_time } }
      else .ok s)
    .ok (0, s)

/-- The function `setPlayerCrossFade(crossFadeInSeconds)`. -/
def setPlayerCrossFade (crossFadeInSeconds : Rat) (s : World) : World :=
  let crossFadeInSeconds := if crossFadeInSeconds < 0 then 0 else crossFadeInSeconds
  { s with pc := { s.pc with crossFade := crossFadeInSeconds } }

/-- The function `setPlayerSoftwareVolume(volume)`. -/
def setPlayerSoftwareVolume (volume : Int) (s : World) : World :=
  let volume := if volume > 1000 then 1000 else (if volume < 0 then 0 else volume)
  { s with pc := { s.pc with softwareVolume := volume } }

/-- The world after the call of `playerSeek`, whatever its outcome. -/
def seek_world : Outcome (Int × World) → World
  | .ok (_, s) => s
  | .error (_, s) => s

/-- The calls into player_control.c that can change the world. -/
inductive Call where
  | playerPlay (song : Option Nat)
  | playerWait
  | playerKill
  | playerPause
  | playerSetPause (pause_flag : Int)
  | clearPlayerError
  | queueSong (song : Option Nat)
  | setQueueState (queueState : enum_player_queue_state)
  | playerQueueLock
  | playerQueueUnlock
  | playerSeek (song : Option Nat) (seek_time : Rat)
  | setPlayerCrossFade (crossFadeInSeconds : Rat)
  | setPlayerSoftwareVolume (volume : Int)

/-- The world after a call, whatever its outcome; each blocking command of the
call waits at most `fuel` rounds. -/
def Call.run (w : Worker) (fuel : Nat) (mem : Nat → Song) : Call → World → World
  | .playerPlay song, s => (MPD.playerPlay w fuel mem song s).world
  | .playerWait, s => (MPD.playerWait w fuel s).world
  | .playerKill, s => (MPD.playerKill w fuel s).world
  | .playerPause, s => (MPD.playerPause w fuel s).world
  | .playerSetPause pause_flag, s => (MPD.playerSetPause w fuel pause_flag s).world
  | .clearPlayerError, s => MPD.clearPlayerError s
  | .queueSong song, s => (MPD.queueSong mem song s).world
  | .setQueueState queueState, s => MPD.setQueueState queueState s
  | .playerQueueLock, s => (MPD.playerQueueLock w fuel s).world
  | .playerQueueUnlock, s => (MPD.playerQueueUnlock w fuel s).world
  | .playerSeek song seek_time, s => seek_world (MPD.playerSeek w fuel mem song seek_time s)
  | .setPlayerCrossFade x, s => MPD.setPlayerCrossFade x s
  | .setPlayerSoftwareVolume volume, s => MPD.setPlayerSoftwareVolume volume s

/-- The worlds that the calls of player_control.c reach after `pc_init`, with the
worker `w` running during the waits. -/
inductive Reachable (w : Worker) (mem : Nat → Song) : World → Prop where
  | init (buffered_before_play : Nat) (pc : player_control) :
    Reachable w mem { pc := pc_init buffered_before_play pc, rounds := 0, issued := [] }
  | call (c : Call) (fuel : Nat) {s : World} :
    Reachable w mem s → Reachable w mem (c.run w fuel mem s)

/-- The world after `k` further rounds of the worker. -/
def worker_rounds (w : Worker) : Nat → World → World
  | 0, s => s
  | k + 1, s => worker_rounds w k (worker_round w s)

/-- The worker acknowledges: from every world it has reset `pc.command` to
`PLAYER_COMMAND_NONE` after at most `n` rounds. -/
def Responsive (w : Worker) (n : Nat) : Prop :=
  ∀ s : World, ∃ k, k ≤ n ∧ (worker_rounds w k s).pc.command = PLAYER_COMMAND_NONE

/-- The worker that does nothing but acknowledge the pending command. -/
def ack_worker : Worker := fun _ pc => { pc with command := PLAYER_COMMAND_NONE }

/-- The zero-initialised global `pc` before `pc_init`. -/
def pc_zero : player_control :=
  { buffered_before_play := 0, notify := 0, command := PLAYER_COMMAND_NONE,
    state := PLAYER_STATE_STOP, error := PLAYER_ERROR_NOERROR,
    queueState := PLAYER_QUEUE_BLANK, queueLockState := PLAYER_QUEUE_UNLOCKED,
    crossFade := 0, softwareVolume := 0, fileTime := 0, next_song := none,
    errored_song := none, seekWhere := 0, elapsedTime := 0, totalTime := 0, bitRate := 0,
    totalPlayTime := 0, sampleRate := 0, bits := 0, channels := 0 }

/-- The world right after `pc_init(10)`. -/
def world_init : World := { pc := pc_init 10 pc_zero, rounds := 0, issued := [] }

/-- A world in which a song is playing. -/
def world_playing : World :=
  { world_init with pc := { world_init.pc with state := PLAYER_STATE_PLAY, next_song := some 1 } }

/-- A memory with songs: the song at address 1 has a tag of 240 seconds, the
others have no tag. -/
def songs_example : Nat → Song := fun a =>
  { url := some "song.ogg", tag := if a = 1 then some ⟨240⟩ else none }

/-- A world in which a song is playing and a decode error is pending. -/
def world_errored : World :=
  { world_playing with pc := { world_playing.pc with error := PLAYER_ERROR_FILE } }

/-- The context after the stores that `playerPlay` makes between its two
commands: `pc.queueState = PLAYER_QUEUE_BLANK` and the stores of
`set_current_song(song)` for a song with a URL. -/
def play_target (mem : Nat → Song) (song : Nat) (pc : player_control) : player_control :=
  { pc with
    queueState := PLAYER_QUEUE_BLANK
    fileTime := (match (mem song).tag with
      | some t => t.time
      | none => 0)
    next_song := some song }

/-- The world after `playerPlay` of the song at address 1,
`setPlayerSoftwareVolume(1500)` and `playerPause`, started right after `pc_init`
with the worker that only acknowledges. -/
def world_after_calls : World :=
  Call.run ack_worker 1 songs_example Call.playerPause
    (Call.run ack_worker 1 songs_example (Call.setPlayerSoftwareVolume 1500)
      (Call.run ack_worker 1 songs_example (Call.playerPlay (some 1)) world_init))

/-! ## Sequences of calls and workers that answer commands -/

/-- The outcome of a call: the world at its return, or the fault that ends it
(`Fault.no_ack` when a command is still pending after `fuel` rounds). -/
def Call.outcome (w : Worker) (fuel : Nat) (mem : Nat → Song) : Call → World → Outcome World
  | .playerPlay song, s => MPD.playerPlay w fuel mem song s
  | .playerWait, s => MPD.playerWait w fuel s
  | .playerKill, s => MPD.playerKill w fuel s
  | .playerPause, s => MPD.playerPause w fuel s
  | .playerSetPause pause_flag, s => MPD.playerSetPause w fuel pause_flag s
  | .clearPlayerError, s => .ok (MPD.clearPlayerError s)
  | .queueSong song, s => MPD.queueSong mem song s
  | .setQueueState queueState, s => .ok (MPD.setQueueState queueState s)
  | .playerQueueLock, s => MPD.playerQueueLock w fuel s
  | .playerQueueUnlock, s => MPD.playerQueueUnlock w fuel s
  | .playerSeek song seek_time, s =>
    (MPD.playerSeek w fuel mem song seek_time s).bind (fun r => .ok r.2)
  | .setPlayerCrossFade x, s => .ok (MPD.setPlayerCrossFade x s)
  | .setPlayerSoftwareVolume volume, s => .ok (MPD.setPlayerSoftwareVolume volume s)

/-- A sequence of calls, each with the number of rounds its commands may wait:
the world at the return of the last call, or the first fault. -/
def calls_outcome (w : Worker) (mem : Nat → Song) : List (Nat × Call) → World → Outcome World
  | [], s => .ok s
  | (fuel, c) :: rest, s => (c.outcome w fuel mem s).bind (calls_outcome w mem rest)

/-- The call `playerQueueUnlock()` made `n` times in a row. -/
def playerQueueUnlock_times (w : Worker) (fuel : Nat) : Nat → World → Outcome World
  | 0, s => .ok s
  | n + 1, s => (playerQueueUnlock w fuel s).bind (playerQueueUnlock_times w fuel n)

/-- The state after a Pause command has been carried out: Playing and Paused
change places, Stopped stays. -/
def toggle_pause : enum_player_state → enum_player_state
  | PLAYER_STATE_PLAY => PLAYER_STATE_PAUSE
  | PLAYER_STATE_PAUSE => PLAYER_STATE_PLAY
  | PLAYER_STATE_STOP => PLAYER_STATE_STOP

/-- The worker answers a LockQueue command within one round by setting the queue
lock and resetting the command. -/
def AnswersLock (w : Worker) : Prop :=
  ∀ t pc, pc.command = PLAYER_COMMAND_LOCK_QUEUE →
    (w t pc).command = PLAYER_COMMAND_NONE ∧ (w t pc).queueLockState = PLAYER_QUEUE_LOCKED

/-- The worker answers an UnlockQueue command within one round by releasing the
queue lock and resetting the command. -/
def AnswersUnlock (w : Worker) : Prop :=
  ∀ t pc, pc.command = PLAYER_COMMAND_UNLOCK_QUEUE →
    (w t pc).command = PLAYER_COMMAND_NONE ∧ (w t pc).queueLockState = PLAYER_QUEUE_UNLOCKED

/-- The worker answers a Pause command within one round by toggling between
Playing and Paused and resetting the command. -/
def AnswersPause (w : Worker) : Prop :=
  ∀ t pc, pc.command = PLAYER_COMMAND_PAUSE →
    (w t pc).command = PLAYER_COMMAND_NONE ∧ (w t pc).state = toggle_pause pc.state

/-- Modelled from the spec: the decode worker (player_thread.c is not among the
sources), as far as section 4.2 fixes what it does to the shared context: Play
(taken to succeed) makes the state Playing, Stop makes it Stopped, Pause toggles
Playing and Paused, LockQueue and UnlockQueue flip the queue lock, and every
command is acknowledged by resetting it to `PLAYER_COMMAND_NONE`. -/
def spec_worker : Worker := fun _ pc =>
  match pc.command with
  | PLAYER_COMMAND_PLAY =>
    { pc with command := PLAYER_COMMAND_NONE, state := PLAYER_STATE_PLAY }
  | PLAYER_COMMAND_STOP =>
    { pc with command := PLAYER_COMMAND_NONE, state := PLAYER_STATE_STOP }
  | PLAYER_COMMAND_PAUSE =>
    { pc with command := PLAYER_COMMAND_NONE, state := toggle_pause pc.state }
  | PLAYER_COMMAND_LOCK_QUEUE =>
    { pc with command := PLAYER_COMMAND_NONE, queueLockState := PLAYER_QUEUE_LOCKED }
  | PLAYER_COMMAND_UNLOCK_QUEUE =>
    { pc with command := PLAYER_COMMAND_NONE, queueLockState := PLAYER_QUEUE_UNLOCKED }
  | _ => { pc with command := PLAYER_COMMAND_NONE }

/-- A world in which the queue is locked. -/
def world_locked : World :=
  { world_init with pc := { world_init.pc with queueLockState := PLAYER_QUEUE_LOCKED } }

/-- A world in which playback is paused. -/
def world_paused : World :=
  { world_init with pc := { world_init.pc with state := PLAYER_STATE_PAUSE, next_song := some 1 } }

/-- A world in which the queue holds a song. -/
def world_queued : World :=
  { world_playing with pc := { world_playing.pc with queueState := PLAYER_QUEUE_FULL } }

/-- A sequence of calls, each waiting at most one round per command. -/
def calls_example : List (Nat × Call) :=
  [(1, Call.playerPlay (some 1)), (1, Call.playerPause), (1, Call.playerSeek (some 2) 30),
   (1, Call.playerQueueLock), (1, Call.playerQueueUnlock), (1, Call.playerSetPause 0),
   (1, Call.playerWait)]

/-- The world after `calls_example`, started right after `pc_init` with the
worker of the spec. -/
def world_after_sequence : World :=
  (calls_outcome spec_worker songs_example calls_example world_init).world

/-! ## The error message of `getPlayerErrorStr` -/

/-- The character `"` of the format strings. -/
def dquote : Char := Char.ofNat 34

/-- The characters that `snprintf(buf, size, fmt, arg)` leaves in `buf` for a
format with one `%s`: the text before it, the argument and the text after it, cut
to `size - 1` characters. -/
def snprintf_s (size : Nat) (before arg after : List Char) : List Char :=
  (before ++ arg ++ after).take (size - 1)

/-- The function `getPlayerErrorStr()`: `none` is NULL. `MPD_PATH_MAX` (path.h) and
`get_song_url` (song.c), which puts the URL of a song into `path_max_tmp` and
returns it, are not among the sources and are parameters. -/
def getPlayerErrorStr (MPD_PATH_MAX : Nat) (get_song_url : Option Nat → List Char)
    (pc : player_control) : Option (List Char) :=
  let errorlen := MPD_PATH_MAX + 64
  let error : List Char :=
    match pc.error with
    | PLAYER_ERROR_FILENOTFOUND =>
      snprintf_s errorlen ("file ".toList ++ [dquote]) (get_song_url pc.errored_song)
        ([dquote] ++ " does not exist or is inaccessible".toList)
    | PLAYER_ERROR_FILE =>
      snprintf_s errorlen ("problems decoding ".toList ++ [dquote])
        (get_song_url pc.errored_song) [dquote]
    | PLAYER_ERROR_AUDIO => "problems opening audio device".toList
    | PLAYER_ERROR_SYSTEM => "system error occured".toList
    | PLAYER_ERROR_UNKTYPE =>
      snprintf_s errorlen ("file type of ".toList ++ [dquote]) (get_song_url pc.errored_song)
        ([dquote] ++ " is unknown".toList)
    | PLAYER_ERROR_NOERROR => []
  if error ≠ [] then some error else none

/-- A world in which the song at address 1 could not be found. -/
def world_notfound : World :=
  { world_init with pc := { world_init.pc with
    error := PLAYER_ERROR_FILENOTFOUND, errored_song := some 1 } }

/-- The URL of a song as `get_song_url` would give it for `songs_example`. -/
def url_example : Option Nat → List Char := fun _ => "song.ogg".toList

/-! ## The fields that the callers write -/

/-- The value `(int64_t)AV_NOPTS_VALUE` of libavutil, `0x8000000000000000` read as
a signed 64 bit integer: the `duration` of a container whose length is unknown. -/
def AV_NOPTS_VALUE : Int := -9223372036854775808

/-- The constant `AV_TIME_BASE` of libavutil: the units of `duration` in a second. -/
def AV_TIME_BASE : Int := 1000000

/-- The `int total_time` that `ffmpeg_decode` computes from
`format_context->duration` and hands to `decoder_initialized`. -/
def ffmpeg_total_time (duration : Int) : Int :=
  wrap32 (if duration ≠ AV_NOPTS_VALUE then Int.tdiv duration AV_TIME_BASE else 0)

/-- The `tag->time` that `ffmpeg_stream_tag` computes from `f->duration`. -/
def ffmpeg_tag_time (duration : Int) : Int :=
  wrap32 (if duration ≠ AV_NOPTS_VALUE then Int.tdiv duration AV_TIME_BASE else 0)

/-- The type `enum decoder_command` (decoder_command.h): the enumerators used by the
source, and `DECODE_COMMAND_START` for a command that is neither of them. -/
inductive enum_decoder_command where
  | DECODE_COMMAND_NONE
  | DECODE_COMMAND_START
  | DECODE_COMMAND_STOP
  | DECODE_COMMAND_SEEK
  deriving DecidableEq, Repr

open enum_decoder_command

/-- What the libraries and the decoder API return in one turn of the main loop of
`ffmpeg_decode`: the value of `av_read_frame`, the command that
`ffmpeg_send_packet` or `decoder_get_command` returns, and the value of
`av_seek_frame` (read only when the command is Seek). -/
structure decode_turn where
  av_read_frame : Int
  cmd : enum_decoder_command
  av_seek_frame : Int
  deriving DecidableEq, Repr

/-- The two calls with which the main loop answers a Seek command. -/
inductive decode_call where
  | decoder_seek_error
  | decoder_command_finished
  deriving DecidableEq, Repr

/-- How the main loop stands after the turns given: left at `break` (end of file),
left at `while (cmd != DECODE_COMMAND_STOP)`, or still running. -/
inductive loop_exit where
  | end_of_file
  | stop
  | running
  deriving DecidableEq, Repr

/-- The body of `if (cmd == DECODE_COMMAND_SEEK) { ... }`: the calls it makes. -/
def seek_calls (t : decode_turn) : List decode_call :=
  if t.cmd = DECODE_COMMAND_SEEK then
    (if t.av_seek_frame < 0 then [decode_call.decoder_seek_error]
     else [decode_call.decoder_command_finished])
  else []

/-- The main loop `do { ... } while (cmd != DECODE_COMMAND_STOP)` of `ffmpeg_decode`
over the turns given: the calls made in answer to Seek commands, in order, and how
the loop stands after them. -/
def ffmpeg_decode_loop : List decode_turn → List decode_call × loop_exit
  | [] => ([], loop_exit.running)
  | t :: rest =>
    if t.av_read_frame < 0 then ([], loop_exit.end_of_file)
    else if t.cmd ≠ DECODE_COMMAND_STOP then
      (seek_calls t ++ (ffmpeg_decode_loop rest).1, (ffmpeg_decode_loop rest).2)
    else (seek_calls t, loop_exit.stop)

/-- The calls made over turns none of which ends the loop. -/
def calls_of : List decode_turn → List decode_call
  | [] => []
  | t :: rest => seek_calls t ++ calls_of rest

/-- A turn with a packet and no command. -/
def turn_plain : decode_turn := ⟨0, DECODE_COMMAND_NONE, 0⟩

/-- A turn in which a Seek is observed and `av_seek_frame` fails. -/
def turn_seek_failed : decode_turn := ⟨0, DECODE_COMMAND_SEEK, -1⟩

/-- The turns after the failed seek of the example: a packet without command, a
Seek that succeeds, a Stop. -/
def turns_after : List decode_turn :=
  [⟨0, DECODE_COMMAND_NONE, 0⟩, ⟨0, DECODE_COMMAND_SEEK, 0⟩, ⟨0, DECODE_COMMAND_STOP, 0⟩]

/-! ## The tables and the buffer alignment of `decoder/ffmpeg_decoder_plugin.c` -/

/-- The array `ffmpeg_mime_types` without its terminating NULL, entry by entry as
the compiler reads the initialiser: where the source has no comma between two
string literals, the two are one concatenated literal, written here with `++`. -/
def ffmpeg_mime_types : List String :=
  ["application/m4a",
   "application/mp4",
   "application/octet-stream",
   "application/ogg",
   "application/x-ms-wmz",
   "application/x-ms-wmd",
   "application/x-ogg",
   "application/x-shockwave-flash",
   "application/x-shorten",
   "audio/8svx",
   "audio/16sv",
   "audio/aac",
   "audio/ac3",
   "audio/aiff"
     ++ "audio/amr",
   "audio/basic",
   "audio/flac",
   "audio/m4a",
   "audio/mp4",
   "audio/mpeg",
   "audio/musepack",
   "audio/ogg",
   "audio/qcelp",
   "audio/vorbis",
   "audio/vorbis+ogg",
   "audio/x-8svx",
   "audio/x-16sv",
   "audio/x-aac",
   "audio/x-ac3",
   "audio/x-aiff"
     ++ "audio/x-alaw",
   "audio/x-au",
   "audio/x-dca",
   "audio/x-eac3",
   "audio/x-flac",
   "audio/x-gsm",
   "audio/x-mace",
   "audio/x-matroska",
   "audio/x-monkeys-audio",
   "audio/x-mpeg",
   "audio/x-ms-wma",
   "audio/x-ms-wax",
   "audio/x-musepack",
   "audio/x-ogg",
   "audio/x-vorbis",
   "audio/x-vorbis+ogg",
   "audio/x-pn-realaudio",
   "audio/x-pn-multirate-realaudio",
   "audio/x-speex",
   "audio/x-tta"
     ++ "audio/x-voc",
   "audio/x-wav",
   "audio/x-wma",
   "audio/x-wv",
   "video/anim",
   "video/quicktime",
   "video/msvideo",
   "video/ogg",
   "video/theora",
   "video/x-dv",
   "video/x-flv",
   "video/x-matroska",
   "video/x-mjpeg",
   "video/x-mpeg",
   "video/x-ms-asf",
   "video/x-msvideo",
   "video/x-ms-wmv",
   "video/x-ms-wvx",
   "video/x-ms-wm",
   "video/x-ms-wmx",
   "video/x-nut",
   "video/x-pva",
   "video/x-theora",
   "video/x-vid",
   "video/x-wmv",
   "video/x-xvid"]

/-- The number of `/` in a string. -/
def slashes (s : String) : Nat := s.toList.count '/'

/-- The string with its ASCII capitals made small. -/
def ascii_lower (s : String) : List Char := s.toList.map Char.toLower

/-- A MIME lookup in a table: some entry is the same as `needle` under the
comparison `same` of the lookup. -/
def mime_lookup (same : String → String → Bool) (table : List String) (needle : String) :
    Bool :=
  table.any (fun entry => same entry needle)

/-- The six MIME types that the source writes next to a missing comma. -/
def mime_types_joined : List String :=
  ["audio/aiff", "audio/amr", "audio/x-aiff", "audio/x-alaw", "audio/x-tta", "audio/x-voc"]

/-- The function `align16(p, length_p)`: the pointer returned and the length left in
`*length_p`. Addresses and `size_t` values are numbers below `2 ^ bits`, and the
arithmetic of `size_t` and of pointers wraps there; `add` is at most 16 and fits
`unsigned`. -/
def align16 (bits : Nat) (p length : Nat) : Nat × Nat :=
  let add := (16 + 2 ^ bits - p % 2 ^ bits % 16) % 2 ^ bits
  ((p + add) % 2 ^ bits, (length + 2 ^ bits - add % 2 ^ bits) % 2 ^ bits)

/-- The value of `sizeof(audio_buf)` in `ffmpeg_send_packet`, for the value of
libavcodec's `AVCODEC_MAX_AUDIO_FRAME_SIZE`. -/
def audio_buf_size (AVCODEC_MAX_AUDIO_FRAME_SIZE : Nat) : Nat :=
  (AVCODEC_MAX_AUDIO_FRAME_SIZE * 3) / 2 + 16

/-! ## `playlist_list.c` -/

/-- The part of `struct playlist_plugin` (playlist_plugin.h) that
`playlist_list_open_uri` reads; `none` is NULL. The method `open_uri` gives the
provider it opens for a URI, or NULL. -/
structure playlist_plugin where
  name : String
  open_uri : Option (String → Option Nat)
  schemes : Option (List String)
  suffixes : Option (List String)

/-- What `playlist_list_open_uri` takes from outside its file: the array
`playlist_plugins` (without the terminating NULL), the array
`playlist_plugins_enabled`, and the helpers `string_array_contains` (utils.c),
`g_uri_parse_scheme` and `uri_get_suffix` (uri.c). -/
structure playlist_env where
  playlist_plugins : List playlist_plugin
  playlist_plugins_enabled : Nat → Bool
  string_array_contains : List String → String → Bool
  g_uri_parse_scheme : String → Option String
  uri_get_suffix : String → Option String

/-- The call `playlist_plugin_open_uri(plugin, uri)`: the method `open_uri` of the
plugin applied to the URI. -/
def playlist_plugin_open_uri (plugin : playlist_plugin) (uri : String) : Option Nat :=
  match plugin.open_uri with
  | some f => f uri
  | none => none

/-- The array `tried` of one call of `playlist_list_open_uri`, with the history of
the call: `opened` lists the plugins whose `open_uri` was invoked and `indexed`
the indices used on `tried`, both in order. -/
structure open_uri_state where
  tried : List Bool
  opened : List Nat
  indexed : List Nat
  deriving DecidableEq, Repr

/-- The condition `playlist_plugins_enabled[i] && plugin->open_uri != NULL &&
plugin->schemes != NULL && string_array_contains(plugin->schemes, scheme)`. -/
def matches_scheme (env : playlist_env) (scheme : String) (i : Nat)
    (plugin : playlist_plugin) : Bool :=
  env.playlist_plugins_enabled i && plugin.open_uri.isSome &&
    (match plugin.schemes with
     | some schemes => env.string_array_contains schemes scheme
     | none => false)

/-- The condition of the suffix pass without its test of `tried`:
`playlist_plugins_enabled[i] && plugin->open_uri != NULL && plugin->suffixes != NULL
&& string_array_contains(plugin->suffixes, suffix)`. -/
def matches_suffix (env : playlist_env) (suffix : String) (i : Nat)
    (plugin : playlist_plugin) : Bool :=
  env.playlist_plugins_enabled i && plugin.open_uri.isSome &&
    (match plugin.suffixes with
     | some suffixes => env.string_array_contains suffixes suffix
     | none => false)

/-- The loop of `playlist_list_open_uri_scheme` from index `i` on, over the
plugins from that index on. -/
def open_uri_scheme_loop (env : playlist_env) (scheme uri : String) :
    List playlist_plugin → Nat → open_uri_state → Except Fault (Option Nat × open_uri_state)
  | [], _, st => .ok (none, st)
  | plugin :: rest, i, st =>
    if st.tried.getD i false then .error Fault.assertion
    else if matches_scheme env scheme i plugin then
      match playlist_plugin_open_uri plugin uri with
      | some playlist => .ok (some playlist, ⟨st.tried, st.opened ++ [i], st.indexed ++ [i]⟩)
      | none =>
        open_uri_scheme_loop env scheme uri rest (i + 1)
          ⟨st.tried.set i true, st.opened ++ [i], st.indexed ++ [i, i]⟩
    else
      open_uri_scheme_loop env scheme uri rest (i + 1)
        ⟨st.tried, st.opened, st.indexed ++ [i]⟩

/-- The function `playlist_list_open_uri_scheme(uri, tried)`. -/
def playlist_list_open_uri_scheme (env : playlist_env) (uri : String) (st : open_uri_state) :
    Except Fault (Option Nat × open_uri_state) :=
  match env.g_uri_parse_scheme uri with
  | none => .ok (none, st)
  | some scheme => open_uri_scheme_loop env scheme uri env.playlist_plugins 0 st

/-- The loop of `playlist_list_open_uri_suffix` from index `i` on; `tried[i]` is
read only for an enabled plugin. -/
def open_uri_suffix_loop (env : playlist_env) (suffix uri : String) :
    List playlist_plugin → Nat → open_uri_state → Option Nat × open_uri_state
  | [], _, st => (none, st)
  | plugin :: rest, i, st =>
    if env.playlist_plugins_enabled i then
      if !st.tried.getD i false && matches_suffix env suffix i plugin then
        match playlist_plugin_open_uri plugin uri with
        | some playlist => (some playlist, ⟨st.tried, st.opened ++ [i], st.indexed ++ [i]⟩)
        | none =>
          open_uri_suffix_loop env suffix uri rest (i + 1)
            ⟨st.tried, st.opened ++ [i], st.indexed ++ [i]⟩
      else
        open_uri_suffix_loop env suffix uri rest (i + 1)
          ⟨st.tried, st.opened, st.indexed ++ [i]⟩
    else open_uri_suffix_loop env suffix uri rest (i + 1) st

/-- The function `playlist_list_open_uri_suffix(uri, tried)`. -/
def playlist_list_open_uri_suffix (env : playlist_env) (uri : String) (st : open_uri_state) :
    Option Nat × open_uri_state :=
  match env.uri_get_suffix uri with
  | none => (none, st)
  | some suffix => open_uri_suffix_loop env suffix uri env.playlist_plugins 0 st

/-- The function `playlist_list_open_uri(uri)`: the provider returned (`none` is
NULL) and the array `tried` with the history at the return. The array has
`G_N_ELEMENTS(playlist_plugins) - 1` elements, one for each plugin, all false
after the `memset`. -/
def playlist_list_open_uri (env : playlist_env) (uri : String) :
    Except Fault (Option Nat × open_uri_state) :=
  match playlist_list_open_uri_scheme env uri
      ⟨List.replicate env.playlist_plugins.length false, [], []⟩ with
  | .error e => .error e
  | .ok (some playlist, st) => .ok (some playlist, st)
  | .ok (none, st) => .ok (playlist_list_open_uri_suffix env uri st)

/-- The provider of the first plugin, in the order of the registry from index `i`
on, that fulfils `ok` and opens the URI; `none` when there is none. -/
def first_opening (ok : Nat → playlist_plugin → Bool) (uri : String) :
    List playlist_plugin → Nat → Option Nat
  | [], _ => none
  | plugin :: rest, i =>
    if ok i plugin then
      match playlist_plugin_open_uri plugin uri with
      | some playlist => some playlist
      | none => first_opening ok uri rest (i + 1)
    else first_opening ok uri rest (i + 1)

/-- The result that the claim describes: the provider of the first enabled plugin
that matches the scheme of the URI and opens it, otherwise of the first enabled
plugin that matches its suffix and opens it, otherwise NULL. -/
def playlist_list_open_uri_spec (env : playlist_env) (uri : String) : Option Nat :=
  match (match env.g_uri_parse_scheme uri with
      | some scheme => first_opening (matches_scheme env scheme) uri env.playlist_plugins 0
      | none => none) with
  | some playlist => some playlist
  | none =>
    match env.uri_get_suffix uri with
    | some suffix => first_opening (matches_suffix env suffix) uri env.playlist_plugins 0
    | none => none

/-- A registry for the examples: a plugin for the scheme `http` whose `open_uri`
fails, which also claims the suffix `m3u`, and a plugin for the suffix `m3u` that
opens the provider 7. -/
def playlist_env_example : playlist_env :=
  { playlist_plugins :=
      [⟨"web", some (fun _ => none), some ["http"], some ["m3u"]⟩,
       ⟨"m3u", some (fun _ => some 7), none, some ["m3u"]⟩]
    playlist_plugins_enabled := fun _ => true
    string_array_contains := fun haystack needle => haystack.contains needle
    g_uri_parse_scheme := fun _ => some "http"
    uri_get_suffix := fun _ => some "m3u" }

/-! ## Theorems about `pcm_volume.c` -/

theorem tdiv_1000_of_nonneg (x : Int) (h : 0 ≤ x) : Int.tdiv x 1000 = x / 1000 :=
  Int.tdiv_eq_ediv h (by decide)

theorem tdiv_1000_of_neg (x : Int) (h : x < 0) : Int.tdiv x 1000 = -((-x) / 1000) := by
  have h1 : Int.tdiv (-(-x)) 1000 = -(Int.tdiv (-x) 1000) := Int.neg_tdiv (-x) 1000
  rw [neg_neg] at h1
  rw [h1, Int.tdiv_eq_ediv (by omega) (by decide)]

theorem tdiv_1000_small (x : Int) (h1 : -1000 < x) (h2 : x < 1000) : Int.tdiv x 1000 = 0 := by
  rcases le_or_lt 0 x with h | h
  · rw [tdiv_1000_of_nonneg x h]; omega
  · rw [tdiv_1000_of_neg x h]; omega

theorem wrap32_of_fits (x : Int) (h : fits32 x) : wrap32 x = x := by
  unfold fits32 INT32_MIN INT32_MAX at h
  unfold wrap32
  omega

theorem wrap64_of_fits (x : Int) (h : fits64 x) : wrap64 x = x := by
  unfold fits64 INT64_MIN INT64_MAX at h
  unfold wrap64
  omega

theorem scale32_exact (s v d : Int) (h1 : fits32 (s * v)) (h2 : fits32 (s * v + d))
    (h3 : fits32 (s * v + d + 500)) : scale32 s v d = Int.tdiv (s * v + d + 500) 1000 := by
  unfold scale32 PCM_VOLUME_1
  rw [wrap32_of_fits _ h1, wrap32_of_fits _ h2]
  have : (1000 : Int) / 2 = 500 := by decide
  rw [this, wrap32_of_fits _ h3]

theorem scale64_exact (s v d : Int) (h1 : fits64 (s * v)) (h2 : fits64 (s * v + d))
    (h3 : fits64 (s * v + d + 500)) : scale64 s v d = Int.tdiv (s * v + d + 500) 1000 := by
  unfold scale64 PCM_VOLUME_1
  rw [wrap64_of_fits _ h1, wrap64_of_fits _ h2]
  have : (1000 : Int) / 2 = 500 := by decide
  rw [this, wrap64_of_fits _ h3]

theorem scale32_zero (v d : Int) (h1 : -1500 < d) (h2 : d < 500) : scale32 0 v d = 0 := by
  rw [scale32_exact]
  · apply tdiv_1000_small <;> omega
  all_goals (unfold fits32 INT32_MIN INT32_MAX; omega)

theorem scale64_zero (v d : Int) (h1 : -1500 < d) (h2 : d < 500) : scale64 0 v d = 0 := by
  rw [scale64_exact]
  · apply tdiv_1000_small <;> omega
  all_goals (unfold fits64 INT64_MIN INT64_MAX; omega)

theorem pcm_range_zero (bits : Nat) : pcm_range 0 bits = 0 := by
  unfold pcm_range
  have : (0 : Int) < 2 ^ (bits - 1) := by positivity
  split
  · omega
  · split
    · omega
    · rfl

theorem pcm_range_eq_zero (bits : Nat) (hbits : bits = 8 ∨ bits = 16 ∨ bits = 24)
    (x : Int) : pcm_range x bits = 0 ↔ x = 0 := by
  unfold pcm_range
  rcases hbits with h | h | h <;> subst h <;> norm_num <;> constructor <;> intro hx
  all_goals (first | (split_ifs at hx <;> omega) | (subst hx; norm_num))

theorem change_8_silence (v : Int) : ∀ (n m : Nat) (dither : Nat → Int),
    (∀ i, -1500 < dither i ∧ dither i < 500) →
    pcm_volume_change_8 dither (List.replicate n 0) m v = List.replicate n 0 := by
  intro n
  induction n with
  | zero => intro m dither _; cases m <;> rfl
  | succ n ih =>
    intro m dither hd
    cases m with
    | zero => rfl
    | succ m =>
      rw [List.replicate_succ, pcm_volume_change_8, scale32_zero v _ (hd 0).1 (hd 0).2,
        pcm_range_zero, ih m _ (fun i => hd (i + 1))]
      rfl

theorem change_16_silence (v : Int) : ∀ (n m : Nat) (dither : Nat → Int),
    (∀ i, -1500 < dither i ∧ dither i < 500) →
    pcm_volume_change_16 dither (List.replicate n 0) m v = List.replicate n 0 := by
  intro n
  induction n with
  | zero => intro m dither _; cases m <;> rfl
  | succ n ih =>
    intro m dither hd
    cases m with
    | zero => rfl
    | succ m =>
      rw [List.replicate_succ, pcm_volume_change_16, scale32_zero v _ (hd 0).1 (hd 0).2,
        pcm_range_zero, ih m _ (fun i => hd (i + 1))]
      rfl

theorem change_24_silence (v : Int) : ∀ (n m : Nat) (dither : Nat → Int),
    (∀ i, -1500 < dither i ∧ dither i < 500) →
    pcm_volume_change_24 dither (List.replicate n 0) m v = List.replicate n 0 := by
  intro n
  induction n with
  | zero => intro m dither _; cases m <;> rfl
  | succ n ih =>
    intro m dither hd
    cases m with
    | zero => rfl
    | succ m =>
      rw [List.replicate_succ, pcm_volume_change_24, scale64_zero v _ (hd 0).1 (hd 0).2,
        pcm_range_zero, ih m _ (fun i => hd (i + 1))]
      rfl

theorem load8_zeros (n : Nat) : load8 (List.replicate n 0) = List.replicate n 0 := by
  induction n with
  | zero => rfl
  | succ n ih => rw [List.replicate_succ, load8, ih]; rfl

theorem store8_zeros (n : Nat) : store8 (List.replicate n 0) = List.replicate n 0 := by
  induction n with
  | zero => rfl
  | succ n ih => rw [List.replicate_succ, store8, ih]; rfl

theorem load16_zeros (be : Bool) (n : Nat) :
    load16 be (List.replicate (2 * n) 0) = List.replicate n 0 := by
  induction n with
  | zero => rfl
  | succ n ih =>
    have : 2 * (n + 1) = (2 * n + 1) + 1 := by ring
    rw [this, List.replicate_succ, List.replicate_succ, load16, ih]
    cases be <;> rfl

theorem store16_zeros (be : Bool) (n : Nat) :
    store16 be (List.replicate n 0) = List.replicate (2 * n) 0 := by
  induction n with
  | zero => rfl
  | succ n ih =>
    have : 2 * (n + 1) = (2 * n + 1) + 1 := by ring
    rw [this, List.replicate_succ, store16, ih]
    cases be <;> rfl

theorem load32_zeros (be : Bool) (n : Nat) :
    load32 be (List.replicate (4 * n) 0) = List.replicate n 0 := by
  induction n with
  | zero => rfl
  | succ n ih =>
    have : 4 * (n + 1) = (((4 * n + 1) + 1) + 1) + 1 := by ring
    rw [this, List.replicate_succ, List.replicate_succ, List.replicate_succ,
      List.replicate_succ, load32, ih]
    cases be <;> rfl

theorem store32_zeros (be : Bool) (n : Nat) :
    store32 be (List.replicate n 0) = List.replicate (4 * n) 0 := by
  induction n with
  | zero => rfl
  | succ n ih =>
    have : 4 * (n + 1) = (((4 * n + 1) + 1) + 1) + 1 := by ring
    rw [this, List.replicate_succ, store32, ih]
    cases be <;> rfl

theorem zeros_split (n k : Nat) (h : k ≤ n) :
    List.replicate k (0 : Byte) ++ List.drop k (List.replicate n 0) = List.replicate n 0 := by
  rw [List.drop_replicate, ← List.replicate_add]
  congr 1
  omega

/-- C1: with volume 1000 (`PCM_VOLUME_1`) `pcm_volume` returns the buffer as it
was, byte for byte, for every buffer, length, format and dither. -/
theorem pcm_volume_identity (be : Bool) (dither : Nat → Int) (buffer : List Byte)
    (format : audio_format) : pcm_volume be dither buffer format 1000 = .ok buffer := by
  simp [pcm_volume, PCM_VOLUME_1]

/-- C2: with a volume of at most 0 `pcm_volume` returns a buffer of the length of
the input in which every byte is zero, for every buffer, format and dither. -/
theorem pcm_volume_mute (be : Bool) (dither : Nat → Int) (buffer : List Byte)
    (format : audio_format) (volume : Int) (hv : volume ≤ 0) :
    ∃ out, pcm_volume be dither buffer format volume = .ok out ∧
      out.length = buffer.length ∧ ∀ i (h : i < out.length), out[i] = 0 := by
  refine ⟨List.replicate buffer.length 0, ?_, by simp, ?_⟩
  · have : volume ≠ 1000 := by omega
    simp [pcm_volume, PCM_VOLUME_1, this, hv]
  · intro i h
    simp

/-- Witness of C2 at volume -3 on a three byte buffer. -/
theorem pcm_volume_mute_witness :
    (-3 : Int) ≤ 0 ∧
    ∃ out, pcm_volume false (fun _ => 0) [1, 2, 3] ⟨44100, 16, 2⟩ (-3) = .ok out ∧
      out.length = ([1, 2, 3] : List Byte).length ∧ ∀ i (h : i < out.length), out[i] = 0 :=
  ⟨by decide, pcm_volume_mute false (fun _ => 0) [1, 2, 3] ⟨44100, 16, 2⟩ (-3) (by decide)⟩

/-- C3 (as amended): for every volume, every depth among 8, 16 and 24 and every
all-zero buffer, the buffer after `pcm_volume` is all zero, provided that on the
scaling path (volume above 0 and other than 1000) every dither value `d` that
`pcm_dither` returns satisfies `-1500 < d < 500`. -/
theorem pcm_volume_silence (be : Bool) (dither : Nat → Int) (n : Nat)
    (format : audio_format) (volume : Int)
    (hbits : format.bits = 8 ∨ format.bits = 16 ∨ format.bits = 24)
    (hd : 0 < volume → volume ≠ 1000 → ∀ i, -1500 < dither i ∧ dither i < 500) :
    pcm_volume be dither (List.replicate n 0) format volume = .ok (List.replicate n 0) := by
  unfold pcm_volume
  simp only [List.length_replicate]
  split
  · rfl
  · split
    · rfl
    · rename_i h1 h2
      have hd : ∀ i, -1500 < dither i ∧ dither i < 500 := hd (by omega) h1
      rcases hbits with h | h | h <;> rw [h] <;> simp only
      · rw [load8_zeros, change_8_silence volume _ _ _ hd, store8_zeros]
      · rw [List.take_replicate, Nat.min_eq_left (by omega), load16_zeros,
          change_16_silence volume _ _ _ hd, store16_zeros, zeros_split _ _ (by omega)]
      · rw [List.take_replicate, Nat.min_eq_left (by omega), load32_zeros,
          change_24_silence volume _ _ _ hd, store32_zeros, zeros_split _ _ (by omega)]

/-- Witness of C3 (as amended): six silent bytes, depth 16, volume 500, dither 499. -/
theorem pcm_volume_silence_witness :
    ((⟨44100, 16, 2⟩ : audio_format).bits = 8 ∨ (⟨44100, 16, 2⟩ : audio_format).bits = 16 ∨
      (⟨44100, 16, 2⟩ : audio_format).bits = 24) ∧
    ((0 : Int) < 500 → (500 : Int) ≠ 1000 →
      ∀ i : Nat, -1500 < (fun _ => (499 : Int)) i ∧ (fun _ => (499 : Int)) i < 500) ∧
    pcm_volume false (fun _ => 499) (List.replicate 6 0) ⟨44100, 16, 2⟩ 500
      = .ok (List.replicate 6 0) :=
  ⟨Or.inr (Or.inl rfl),
    fun _ _ _ => ⟨(by decide : (-1500 : Int) < 499), (by decide : (499 : Int) < 500)⟩,
    pcm_volume_silence false (fun _ => 499) 6 ⟨44100, 16, 2⟩ 500 (Or.inr (Or.inl rfl))
      (fun _ _ _ => ⟨(by decide : (-1500 : Int) < 499), (by decide : (499 : Int) < 500)⟩)⟩

/-! ### The samples of the buffer after `pcm_volume` -/

theorem volume_sample_exact (bits : Nat) (s v d : Int) (h : accumulator_fits bits s v d) :
    volume_sample bits s v d = pcm_range (Int.tdiv (s * v + d + 500) 1000) bits := by
  unfold accumulator_fits at h
  unfold volume_sample
  by_cases hb : bits = 24
  · rw [if_pos hb] at h
    rw [if_pos hb, scale64_exact s v d h.1 h.2.1 h.2.2]
  · rw [if_neg hb] at h
    rw [if_neg hb, scale32_exact s v d h.1 h.2.1 h.2.2]

/-- C5 (as amended): for every volume that is neither 1000 nor at most 0 and every
format whose depth is not 8, 16 or 24, `pcm_volume` ends in `g_error`; no buffer
is returned. -/
theorem pcm_volume_unsupported_depth (be : Bool) (dither : Nat → Int) (buffer : List Byte)
    (format : audio_format) (volume : Int) (hv : 0 < volume) (hne : volume ≠ 1000)
    (h8 : format.bits ≠ 8) (h16 : format.bits ≠ 16) (h24 : format.bits ≠ 24) :
    pcm_volume be dither buffer format volume = .error (Fault.g_error format.bits) := by
  have h1 : ¬ volume = PCM_VOLUME_1 := hne
  have h2 : ¬ volume ≤ 0 := by omega
  unfold pcm_volume
  simp only [h1, h2, if_false]

/-- Witness of C5 (as amended) at volume 500 and depth 32. -/
theorem pcm_volume_unsupported_depth_witness :
    (0 : Int) < 500 ∧ (500 : Int) ≠ 1000 ∧ (32 : Nat) ≠ 8 ∧ (32 : Nat) ≠ 16 ∧ (32 : Nat) ≠ 24 ∧
    pcm_volume false (fun _ => 0) [1, 2, 3, 4] ⟨44100, 32, 2⟩ 500
      = .error (Fault.g_error 32) :=
  ⟨by decide, by decide, by decide, by decide, by decide,
    pcm_volume_unsupported_depth false (fun _ => 0) [1, 2, 3, 4] ⟨44100, 32, 2⟩ 500
      (by decide) (by decide) (by decide) (by decide) (by decide)⟩

/-- Counterexample to C5 as stated: at volume 1000 a buffer of 32 bit samples comes
back unchanged, and at volume 0 it comes back zeroed; neither call ends in
`g_error`. -/
theorem unsupported_depth_passes_at_unity :
    pcm_volume false (fun _ => 0) [1, 2, 3, 4] ⟨44100, 32, 2⟩ 1000 = .ok [1, 2, 3, 4] ∧
    pcm_volume false (fun _ => 0) [1, 2, 3, 4] ⟨44100, 32, 2⟩ 0 = .ok [0, 0, 0, 0] := by
  decide

theorem tdiv_round_of_ge (x : Int) (h : -500 ≤ x) :
    Int.tdiv (x + 500) 1000 = round_nearest_1000 x := by
  rw [tdiv_1000_of_nonneg _ (by omega)]
  rfl

theorem tdiv_round_of_lt (x : Int) (h : x < -500) (hm : (x + 500) % 1000 ≠ 0) :
    Int.tdiv (x + 500) 1000 = round_nearest_1000 x + 1 := by
  rw [tdiv_1000_of_neg _ (by omega)]
  unfold round_nearest_1000
  omega

theorem round_nearest_1000_spec (x : Int) :
    -500 ≤ 1000 * round_nearest_1000 x - x ∧ 1000 * round_nearest_1000 x - x < 500 ∨
    1000 * round_nearest_1000 x - x = 500 := by
  unfold round_nearest_1000
  omega

/-- C6: the value that `pcm_volume` writes is the clamp of the quotient truncated
toward zero. For a sum `s * v + d` of at least -500 that is the nearest integer
to `(s * v + d) / 1000`; for a smaller sum that is not a tie it is the nearest
integer plus one. At the 16 bit sample -2, volume 700 and dither 0 (little endian
bytes FE FF) the call writes 0, while the nearest integer to -1.4 is -1. -/
theorem pcm_volume_negative_rounding :
    samples false 16 [0xFE, 0xFF] = [-2] ∧
    pcm_volume false (fun _ => 0) [0xFE, 0xFF] ⟨44100, 16, 2⟩ 700 = .ok [0, 0] ∧
    samples false 16 [0, 0] = [0] ∧
    pcm_range (round_nearest_1000 (-2 * 700 + 0)) 16 = -1 ∧
    (∀ bits s v d, accumulator_fits bits s v d → -500 ≤ s * v + d →
      volume_sample bits s v d = pcm_range (round_nearest_1000 (s * v + d)) bits) ∧
    (∀ bits s v d, accumulator_fits bits s v d → s * v + d < -500 →
      (s * v + d + 500) % 1000 ≠ 0 →
      volume_sample bits s v d = pcm_range (round_nearest_1000 (s * v + d) + 1) bits) := by
  refine ⟨by decide, by decide, by decide, by decide, ?_, ?_⟩
  · intro bits s v d hfit hx
    rw [volume_sample_exact bits s v d hfit, tdiv_round_of_ge _ hx]
  · intro bits s v d hfit hx hm
    rw [volume_sample_exact bits s v d hfit, tdiv_round_of_lt _ hx hm]

/-- On the scaling path, when no step of the sum leaves the accumulator, a silent
sample stays silent exactly for the dither values `d` with `-1500 < d < 500`. -/
theorem volume_sample_silent_iff (bits : Nat) (hbits : bits = 8 ∨ bits = 16 ∨ bits = 24)
    (v d : Int) (hfit : accumulator_fits bits 0 v d) :
    volume_sample bits 0 v d = 0 ↔ -1500 < d ∧ d < 500 := by
  rw [volume_sample_exact bits 0 v d hfit, pcm_range_eq_zero bits hbits]
  simp only [zero_mul, zero_add]
  constructor
  · intro h
    rcases le_or_lt 0 (d + 500) with h0 | h0
    · rw [tdiv_1000_of_nonneg _ h0] at h; omega
    · rw [tdiv_1000_of_neg _ h0] at h; omega
  · intro h
    exact tdiv_1000_small _ (by omega) (by omega)

/-- Counterexample to C3 as stated: with the dither value 500 a silent sample
becomes 1 at volume 500, at each depth (`(0 * 500 + 500 + 500) / 1000 = 1`), with
the dither value 511 it does so at volume 1 as well, and with the dither value
-1500 it becomes -1 (`(0 * 500 - 1500 + 500) / 1000 = -1`). -/
theorem pcm_volume_dither_breaks_silence :
    pcm_volume false (fun _ => 500) [0, 0] ⟨44100, 16, 2⟩ 500 = .ok [1, 0] ∧
    pcm_volume false (fun _ => 500) [0] ⟨44100, 8, 2⟩ 500 = .ok [1] ∧
    pcm_volume false (fun _ => 500) [0, 0, 0, 0] ⟨44100, 24, 2⟩ 500 = .ok [1, 0, 0, 0] ∧
    pcm_volume false (fun _ => 511) [0, 0] ⟨44100, 16, 2⟩ 1 = .ok [1, 0] ∧
    pcm_volume false (fun _ => -1500) [0, 0] ⟨44100, 16, 2⟩ 500 = .ok [255, 255] := by
  decide

/-! ## Theorems about `player_control.c` -/

theorem worker_rounds_issued (w : Worker) : ∀ (k : Nat) (s : World),
    (worker_rounds w k s).issued = s.issued
  | 0, _ => rfl
  | k + 1, s => by
    rw [worker_rounds, worker_rounds_issued w k]
    rfl

theorem player_command_wait_ok (w : Worker) : ∀ (fuel : Nat) (s : World) (k : Nat),
    k ≤ fuel → (worker_rounds w k s).pc.command = PLAYER_COMMAND_NONE →
    ∃ s', player_command_wait w fuel s = .ok s' ∧
      s'.pc.command = PLAYER_COMMAND_NONE ∧ s'.issued = s.issued
  | 0, s, k, hk, h => by
    have hk0 : k = 0 := by omega
    subst hk0
    simp only [worker_rounds] at h
    exact ⟨s, by simp [player_command_wait, h], h, rfl⟩
  | fuel + 1, s, k, hk, h => by
    by_cases hc : s.pc.command = PLAYER_COMMAND_NONE
    · exact ⟨s, by simp [player_command_wait, hc], hc, rfl⟩
    · cases k with
      | zero => exact absurd h hc
      | succ k =>
        simp only [worker_rounds] at h
        obtain ⟨s', h1, h2, h3⟩ :=
          player_command_wait_ok w fuel (worker_round w s) k (by omega) h
        exact ⟨s', by simp [player_command_wait, hc, h1], h2, by rw [h3]; rfl⟩

theorem player_command_ok (w : Worker) (fuel : Nat) (hw : Responsive w fuel)
    (cmd : enum_player_command) (s : World) :
    ∃ s', player_command w fuel cmd s = .ok s' ∧ s'.pc.command = PLAYER_COMMAND_NONE ∧
      s'.issued = s.issued ++ [(cmd, { s.pc with command := cmd })] := by
  obtain ⟨k, hk, h⟩ := hw (issue cmd s)
  obtain ⟨s', h1, h2, h3⟩ := player_command_wait_ok w fuel (issue cmd s) k hk h
  exact ⟨s', h1, h2, h3⟩

theorem ack_worker_responsive (n : Nat) : Responsive ack_worker (n + 1) :=
  fun _ => ⟨1, by omega, rfl⟩

/-- C8: when the state is Stopped, `playerSeek` returns -1 and the world at the
return is the world at the call: no field of `pc` has changed, no command has
been stored and no round of waiting has passed. -/
theorem playerSeek_stopped (w : Worker) (fuel : Nat) (mem : Nat → Song) (song : Nat)
    (seek_time : Rat) (s : World) (h : s.pc.state = PLAYER_STATE_STOP) :
    playerSeek w fuel mem (some song) seek_time s = .ok (-1, s) := by
  simp [playerSeek, h]

/-- Witness of C8 in the world right after `pc_init`. -/
theorem playerSeek_stopped_witness :
    world_init.pc.state = PLAYER_STATE_STOP ∧
    playerSeek ack_worker 1 songs_example (some 1) 30 world_init = .ok (-1, world_init) :=
  ⟨rfl, playerSeek_stopped ack_worker 1 songs_example 1 30 world_init rfl⟩

theorem set_current_song_ok (mem : Nat → Song) (song : Nat) (s : World)
    (hurl : (mem song).url ≠ none) :
    set_current_song mem (some song) s = .ok { s with pc := { s.pc with
      fileTime := (match (mem song).tag with
        | some t => t.time
        | none => 0)
      next_song := some song } } := by
  simp [set_current_song, hurl]

theorem playerSeek_same_song (w : Worker) (fuel : Nat) (mem : Nat → Song) (song : Nat)
    (seek_time : Rat) (s : World) (hstate : s.pc.state ≠ PLAYER_STATE_STOP)
    (herr : s.pc.error = PLAYER_ERROR_NOERROR) (hn : s.pc.next_song = some song) :
    playerSeek w fuel mem (some song) seek_time s =
      (player_command w fuel PLAYER_COMMAND_SEEK
        { s with pc := { s.pc with seekWhere := seek_time } }).bind
        (fun s2 => .ok (0, s2)) := by
  unfold playerSeek
  simp [hstate, hn, herr, bind, Except.bind]

theorem playerSeek_other_song (w : Worker) (fuel : Nat) (mem : Nat → Song) (song : Nat)
    (seek_time : Rat) (s : World) (hstate : s.pc.state ≠ PLAYER_STATE_STOP)
    (herr : s.pc.error = PLAYER_ERROR_NOERROR) (hn : s.pc.next_song ≠ some song)
    (hurl : (mem song).url ≠ none) :
    playerSeek w fuel mem (some song) seek_time s =
      (player_command w fuel PLAYER_COMMAND_SEEK
        { s with pc := { s.pc with
          fileTime := (match (mem song).tag with
            | some t => t.time
            | none => 0)
          next_song := some song
          seekWhere := seek_time } }).bind
        (fun s2 => .ok (0, s2)) := by
  unfold playerSeek
  simp [hstate, hn, herr, bind, Except.bind, set_current_song_ok mem song s hurl]

theorem playerSeek_error_same_song (w : Worker) (fuel : Nat) (mem : Nat → Song) (song : Nat)
    (seek_time : Rat) (s : World) (hstate : s.pc.state ≠ PLAYER_STATE_STOP)
    (herr : s.pc.error ≠ PLAYER_ERROR_NOERROR) (hn : s.pc.next_song = some song) :
    playerSeek w fuel mem (some song) seek_time s = .ok (0, s) := by
  unfold playerSeek
  simp [hstate, hn, herr, bind, Except.bind]

theorem playerSeek_error_other_song (w : Worker) (fuel : Nat) (mem : Nat → Song) (song : Nat)
    (seek_time : Rat) (s : World) (hstate : s.pc.state ≠ PLAYER_STATE_STOP)
    (herr : s.pc.error ≠ PLAYER_ERROR_NOERROR) (hn : s.pc.next_song ≠ some song)
    (hurl : (mem song).url ≠ none) :
    playerSeek w fuel mem (some song) seek_time s =
      .ok (0, { s with pc := { s.pc with
        fileTime := (match (mem song).tag with
          | some t => t.time
          | none => 0)
        next_song := some song } }) := by
  unfold playerSeek
  simp [hstate, hn, herr, bind, Except.bind, set_current_song_ok mem song s hurl]

/-- C9 (as amended): when the state is not Stopped and the song is the current
target or has a URL, `playerSeek` returns 0 in both cases of `pc.error`. With no
error pending and a worker that acknowledges within the rounds allowed, it stores
exactly one command, Seek, and at the moment of the store `next_song` is the given
song and `seekWhere` is the seek time; at the return the command is
`PLAYER_COMMAND_NONE` again. With an error pending, whatever the worker, `next_song`
is the given song at the return (the world is untouched when it was the target
already, and only `fileTime` and `next_song` are written when it was not), while
`seekWhere`, the command, the history of stored commands and the count of waiting
rounds are as they were at the call. -/
theorem playerSeek_active (w : Worker) (fuel : Nat) (mem : Nat → Song) (song : Nat)
    (seek_time : Rat) (s : World) (hstate : s.pc.state ≠ PLAYER_STATE_STOP)
    (hsong : s.pc.next_song = some song ∨ (mem song).url ≠ none) :
    (s.pc.error = PLAYER_ERROR_NOERROR → Responsive w fuel →
      ∃ s' pcs, playerSeek w fuel mem (some song) seek_time s = .ok (0, s') ∧
        s'.pc.command = PLAYER_COMMAND_NONE ∧
        s'.issued = s.issued ++ [(PLAYER_COMMAND_SEEK, pcs)] ∧
        pcs.command = PLAYER_COMMAND_SEEK ∧ pcs.next_song = some song ∧
        pcs.seekWhere = seek_time) ∧
    (s.pc.error ≠ PLAYER_ERROR_NOERROR →
      ∃ s', playerSeek w fuel mem (some song) seek_time s = .ok (0, s') ∧
        s'.pc.next_song = some song ∧
        s'.pc.seekWhere = s.pc.seekWhere ∧
        s'.pc.command = s.pc.command ∧
        s'.pc.state = s.pc.state ∧
        s'.pc.error = s.pc.error ∧
        s'.issued = s.issued ∧
        s'.rounds = s.rounds ∧
        (s.pc.next_song = some song → s' = s) ∧
        (s.pc.next_song ≠ some song →
          s' = { s with pc := { s.pc with
            fileTime := (match (mem song).tag with
              | some t => t.time
              | none => 0)
            next_song := some song } })) := by
  constructor
  · intro herr hw
    by_cases hn : s.pc.next_song = some song
    · obtain ⟨s', h1, h2, h3⟩ := player_command_ok w fuel hw PLAYER_COMMAND_SEEK
        { s with pc := { s.pc with seekWhere := seek_time } }
      refine ⟨s', _, ?_, h2, h3, rfl, hn, rfl⟩
      rw [playerSeek_same_song w fuel mem song seek_time s hstate herr hn, h1]
      rfl
    · have hurl : (mem song).url ≠ none := by
        rcases hsong with h | h
        · exact absurd h hn
        · exact h
      obtain ⟨s', h1, h2, h3⟩ := player_command_ok w fuel hw PLAYER_COMMAND_SEEK
        { s with pc := { s.pc with
            fileTime := (match (mem song).tag with
              | some t => t.time
              | none => 0)
            next_song := some song
            seekWhere := seek_time } }
      refine ⟨s', _, ?_, h2, h3, rfl, rfl, rfl⟩
      rw [playerSeek_other_song w fuel mem song seek_time s hstate herr hn hurl, h1]
      rfl
  · intro herr
    by_cases hn : s.pc.next_song = some song
    · exact ⟨s, playerSeek_error_same_song w fuel mem song seek_time s hstate herr hn,
        hn, rfl, rfl, rfl, rfl, rfl, rfl, fun _ => rfl, fun h => absurd hn h⟩
    · have hurl : (mem song).url ≠ none := by
        rcases hsong with h | h
        · exact absurd h hn
        · exact h
      exact ⟨_, playerSeek_error_other_song w fuel mem song seek_time s hstate herr hn hurl,
        rfl, rfl, rfl, rfl, rfl, rfl, rfl, fun h => absurd h hn, fun _ => rfl⟩

/-- Witness of C9 (as amended): a seek to second 30 of the song at address 2 while
the song at address 1 plays, first with no error pending and then with the error
`PLAYER_ERROR_FILE` pending. -/
theorem playerSeek_active_witness :
    (world_playing.pc.state ≠ PLAYER_STATE_STOP ∧
      (world_playing.pc.next_song = some 2 ∨ (songs_example 2).url ≠ none) ∧
      world_playing.pc.error = PLAYER_ERROR_NOERROR ∧
      Responsive ack_worker 1 ∧
      ∃ s' pcs, playerSeek ack_worker 1 songs_example (some 2) 30 world_playing = .ok (0, s') ∧
        s'.pc.command = PLAYER_COMMAND_NONE ∧
        s'.issued = world_playing.issued ++ [(PLAYER_COMMAND_SEEK, pcs)] ∧
        pcs.command = PLAYER_COMMAND_SEEK ∧ pcs.next_song = some 2 ∧ pcs.seekWhere = 30) ∧
    (world_errored.pc.state ≠ PLAYER_STATE_STOP ∧
      (world_errored.pc.next_song = some 2 ∨ (songs_example 2).url ≠ none) ∧
      world_errored.pc.error ≠ PLAYER_ERROR_NOERROR ∧
      world_errored.pc.next_song ≠ some 2 ∧
      ∃ s', playerSeek ack_worker 1 songs_example (some 2) 30 world_errored = .ok (0, s') ∧
        s'.pc.next_song = some 2 ∧
        s'.pc.seekWhere = world_errored.pc.seekWhere ∧
        s'.pc.command = world_errored.pc.command ∧
        s'.pc.state = world_errored.pc.state ∧
        s'.pc.error = world_errored.pc.error ∧
        s'.issued = world_errored.issued ∧
        s'.rounds = world_errored.rounds ∧
        (world_errored.pc.next_song = some 2 → s' = world_errored) ∧
        (world_errored.pc.next_song ≠ some 2 →
          s' = { world_errored with pc := { world_errored.pc with
            fileTime := (match (songs_example 2).tag with
              | some t => t.time
              | none => 0)
            next_song := some 2 } })) :=
  ⟨⟨by decide, Or.inr (by decide), rfl, ack_worker_responsive 0,
      (playerSeek_active ack_worker 1 songs_example 2 30 world_playing (by decide)
        (Or.inr (by decide))).1 rfl (ack_worker_responsive 0)⟩,
    ⟨by decide, Or.inr (by decide), by decide, by decide,
      (playerSeek_active ack_worker 1 songs_example 2 30 world_errored (by decide)
        (Or.inr (by decide))).2 (by decide)⟩⟩

/-- Counterexample to C9 as stated: the state is Playing, but an error is pending;
`playerSeek` returns 0 and the world is as it was: no Seek command was stored and
`seekWhere` did not receive the seek time. The same holds of a seek to another
song, the one at address 2: `next_song` is re-targeted, yet no command is stored
and `seekWhere` is not the seek time. -/
theorem playerSeek_error_pending :
    world_errored.pc.state = PLAYER_STATE_PLAY ∧
    playerSeek ack_worker 1 songs_example (some 1) 30 world_errored = .ok (0, world_errored) ∧
    world_errored.issued = [] ∧ world_errored.pc.seekWhere ≠ 30 ∧
    (∃ s', playerSeek ack_worker 1 songs_example (some 2) 30 world_errored = .ok (0, s') ∧
      s'.pc.next_song = some 2 ∧ s'.issued = [] ∧ s'.pc.seekWhere ≠ 30) := by
  refine ⟨by decide, by decide, by decide, by decide, ?_⟩
  refine ⟨{ world_errored with pc := { world_errored.pc with
      fileTime := (match (songs_example 2).tag with
        | some t => t.time
        | none => 0)
      next_song := some 2 } }, by decide, by decide, by decide, by decide⟩

theorem playerPlay_from_stop (w : Worker) (fuel : Nat) (mem : Nat → Song) (song : Nat)
    (s : World) (hurl : (mem song).url ≠ none)
    (hlock : s.pc.queueLockState = PLAYER_QUEUE_UNLOCKED)
    (hst : s.pc.state = PLAYER_STATE_STOP) :
    playerPlay w fuel mem (some song) s =
      player_command w fuel PLAYER_COMMAND_PLAY
        { s with pc := play_target mem song s.pc } := by
  unfold playerPlay play_target
  simp [hlock, hst, bind, Except.bind, set_current_song, hurl]

theorem playerPlay_running (w : Worker) (fuel : Nat) (mem : Nat → Song) (song : Nat)
    (s : World) (hurl : (mem song).url ≠ none)
    (hlock : s.pc.queueLockState = PLAYER_QUEUE_UNLOCKED)
    (hst : s.pc.state ≠ PLAYER_STATE_STOP) :
    playerPlay w fuel mem (some song) s =
      (player_command w fuel PLAYER_COMMAND_STOP s).bind (fun s1 =>
        player_command w fuel PLAYER_COMMAND_PLAY
          { s1 with pc := play_target mem song s1.pc }) := by
  unfold playerPlay play_target
  simp [hlock, hst, bind, Except.bind, set_current_song, hurl]

/-- C10: for a song with a URL, an unlocked queue and a worker that acknowledges
within the rounds allowed, `playerPlay` returns after storing the commands Stop,
Play when the state at entry is not Stopped and the single command Play when it
is; at the moment Play is stored `queueState` is Blank, `next_song` is the given
song and `fileTime` is the time of the song's tag (0 without a tag). -/
theorem playerPlay_commands (w : Worker) (fuel : Nat) (mem : Nat → Song) (song : Nat)
    (s : World) (hurl : (mem song).url ≠ none)
    (hlock : s.pc.queueLockState = PLAYER_QUEUE_UNLOCKED) (hw : Responsive w fuel) :
    ∃ s' pcp, playerPlay w fuel mem (some song) s = .ok s' ∧
      s'.pc.command = PLAYER_COMMAND_NONE ∧
      s'.issued = s.issued
        ++ (if s.pc.state = PLAYER_STATE_STOP then []
            else [(PLAYER_COMMAND_STOP, { s.pc with command := PLAYER_COMMAND_STOP })])
        ++ [(PLAYER_COMMAND_PLAY, pcp)] ∧
      pcp.command = PLAYER_COMMAND_PLAY ∧
      pcp.queueState = PLAYER_QUEUE_BLANK ∧
      pcp.next_song = some song ∧
      pcp.fileTime = (match (mem song).tag with
        | some t => t.time
        | none => 0) := by
  by_cases hst : s.pc.state = PLAYER_STATE_STOP
  · obtain ⟨s', h1, h2, h3⟩ := player_command_ok w fuel hw PLAYER_COMMAND_PLAY
      { s with pc := play_target mem song s.pc }
    refine ⟨s', { play_target mem song s.pc with command := PLAYER_COMMAND_PLAY },
      ?_, h2, ?_, rfl, rfl, rfl, rfl⟩
    · rw [playerPlay_from_stop w fuel mem song s hurl hlock hst, h1]
    · rw [h3, if_pos hst, List.append_nil]
  · obtain ⟨s1, h1, _, h3⟩ := player_command_ok w fuel hw PLAYER_COMMAND_STOP s
    obtain ⟨s', h4, h5, h6⟩ := player_command_ok w fuel hw PLAYER_COMMAND_PLAY
      { s1 with pc := play_target mem song s1.pc }
    refine ⟨s', { play_target mem song s1.pc with command := PLAYER_COMMAND_PLAY },
      ?_, h5, ?_, rfl, rfl, rfl, rfl⟩
    · rw [playerPlay_running w fuel mem song s hurl hlock hst, h1]
      exact h4
    · rw [h6, if_neg hst]
      show s1.issued ++ _ = _
      rw [h3]

/-- Witness of C10: `playerPlay` of the song at address 2 while the song at
address 1 plays. -/
theorem playerPlay_commands_witness :
    (songs_example 2).url ≠ none ∧
    world_playing.pc.queueLockState = PLAYER_QUEUE_UNLOCKED ∧
    Responsive ack_worker 1 ∧
    ∃ s' pcp, playerPlay ack_worker 1 songs_example (some 2) world_playing = .ok s' ∧
      s'.pc.command = PLAYER_COMMAND_NONE ∧
      s'.issued = world_playing.issued
        ++ (if world_playing.pc.state = PLAYER_STATE_STOP then []
            else [(PLAYER_COMMAND_STOP,
              { world_playing.pc with command := PLAYER_COMMAND_STOP })])
        ++ [(PLAYER_COMMAND_PLAY, pcp)] ∧
      pcp.command = PLAYER_COMMAND_PLAY ∧
      pcp.queueState = PLAYER_QUEUE_BLANK ∧
      pcp.next_song = some 2 ∧
      pcp.fileTime = (match (songs_example 2).tag with
        | some t => t.time
        | none => 0) :=
  ⟨by decide, rfl, ack_worker_responsive 0,
    playerPlay_commands ack_worker 1 songs_example 2 world_playing (by decide) rfl
      (ack_worker_responsive 0)⟩

/-! ### The software volume -/

theorem world_bind (P : World → Prop) (o : Outcome World) (k : World → Outcome World)
    (ho : P o.world) (hk : ∀ s, P s → P (k s).world) :
    P (Outcome.world (Except.bind o k)) := by
  cases o with
  | error e => exact ho
  | ok s => exact hk s ho

theorem worker_round_volume (w : Worker)
    (hw : ∀ t pc, (w t pc).softwareVolume = pc.softwareVolume) (s : World) :
    (worker_round w s).pc.softwareVolume = s.pc.softwareVolume := by
  simp [worker_round, hw]

theorem player_command_wait_volume (w : Worker)
    (hw : ∀ t pc, (w t pc).softwareVolume = pc.softwareVolume) : ∀ (fuel : Nat) (s : World),
    (player_command_wait w fuel s).world.pc.softwareVolume = s.pc.softwareVolume
  | 0, s => by
    unfold player_command_wait
    split <;> rfl
  | fuel + 1, s => by
    unfold player_command_wait
    split
    · rfl
    · rw [player_command_wait_volume w hw fuel, worker_round_volume w hw]

theorem player_command_volume (w : Worker)
    (hw : ∀ t pc, (w t pc).softwareVolume = pc.softwareVolume) (fuel : Nat)
    (cmd : enum_player_command) (s : World) :
    (player_command w fuel cmd s).world.pc.softwareVolume = s.pc.softwareVolume := by
  unfold player_command
  rw [player_command_wait_volume w hw]
  rfl

theorem set_current_song_volume (mem : Nat → Song) (song : Option Nat) (s : World) :
    (set_current_song mem song s).world.pc.softwareVolume = s.pc.softwareVolume := by
  unfold set_current_song
  split
  · rfl
  · split <;> rfl

theorem playerPlay_volume (w : Worker)
    (hw : ∀ t pc, (w t pc).softwareVolume = pc.softwareVolume) (fuel : Nat)
    (mem : Nat → Song) (song : Option Nat) (s : World) :
    (playerPlay w fuel mem song s).world.pc.softwareVolume = s.pc.softwareVolume := by
  unfold playerPlay
  split
  · rfl
  · apply world_bind (fun x => x.pc.softwareVolume = s.pc.softwareVolume)
    · split
      · exact player_command_volume w hw fuel _ s
      · rfl
    · intro s1 h1
      apply world_bind (fun x => x.pc.softwareVolume = s.pc.softwareVolume)
      · rw [set_current_song_volume]
        exact h1
      · intro s2 h2
        rw [player_command_volume w hw]
        exact h2

theorem playerWait_volume (w : Worker)
    (hw : ∀ t pc, (w t pc).softwareVolume = pc.softwareVolume) (fuel : Nat) (s : World) :
    (playerWait w fuel s).world.pc.softwareVolume = s.pc.softwareVolume := by
  unfold playerWait
  apply world_bind (fun x => x.pc.softwareVolume = s.pc.softwareVolume)
  · exact player_command_volume w hw fuel _ s
  · intro s1 h1
    split
    · exact h1
    · apply world_bind (fun x => x.pc.softwareVolume = s.pc.softwareVolume)
      · rw [player_command_volume w hw]
        exact h1
      · intro s2 h2
        exact h2

theorem playerPause_volume (w : Worker)
    (hw : ∀ t pc, (w t pc).softwareVolume = pc.softwareVolume) (fuel : Nat) (s : World) :
    (playerPause w fuel s).world.pc.softwareVolume = s.pc.softwareVolume := by
  unfold playerPause
  split
  · exact player_command_volume w hw fuel _ s
  · rfl

theorem playerSetPause_volume (w : Worker)
    (hw : ∀ t pc, (w t pc).softwareVolume = pc.softwareVolume) (fuel : Nat)
    (pause_flag : Int) (s : World) :
    (playerSetPause w fuel pause_flag s).world.pc.softwareVolume = s.pc.softwareVolume := by
  unfold playerSetPause
  split
  · rfl
  · split
    · exact playerPause_volume w hw fuel s
    · rfl
  · split
    · exact playerPause_volume w hw fuel s
    · rfl

theorem queueSong_volume (mem : Nat → Song) (song : Option Nat) (s : World) :
    (queueSong mem song s).world.pc.softwareVolume = s.pc.softwareVolume := by
  unfold queueSong
  split
  · rfl
  · apply world_bind (fun x => x.pc.softwareVolume = s.pc.softwareVolume)
    · exact set_current_song_volume mem song s
    · intro s1 h1
      exact h1

theorem playerQueueLock_volume (w : Worker)
    (hw : ∀ t pc, (w t pc).softwareVolume = pc.softwareVolume) (fuel : Nat) (s : World) :
    (playerQueueLock w fuel s).world.pc.softwareVolume = s.pc.softwareVolume := by
  unfold playerQueueLock
  split
  · rfl
  · apply world_bind (fun x => x.pc.softwareVolume = s.pc.softwareVolume)
    · exact player_command_volume w hw fuel _ s
    · intro s1 h1
      split <;> exact h1

theorem playerQueueUnlock_volume (w : Worker)
    (hw : ∀ t pc, (w t pc).softwareVolume = pc.softwareVolume) (fuel : Nat) (s : World) :
    (playerQueueUnlock w fuel s).world.pc.softwareVolume = s.pc.softwareVolume := by
  unfold playerQueueUnlock
  apply world_bind (fun x => x.pc.softwareVolume = s.pc.softwareVolume)
  · split
    · exact player_command_volume w hw fuel _ s
    · rfl
  · intro s1 h1
    split <;> exact h1

theorem seek_world_bind (P : World → Prop) (o : Outcome World)
    (k : World → Outcome (Int × World))
    (ho : P o.world) (hk : ∀ s, P s → P (seek_world (k s))) :
    P (seek_world (Except.bind o k)) := by
  cases o with
  | error e => exact ho
  | ok s => exact hk s ho

theorem playerSeek_volume (w : Worker)
    (hw : ∀ t pc, (w t pc).softwareVolume = pc.softwareVolume) (fuel : Nat)
    (mem : Nat → Song) (song : Option Nat) (seek_time : Rat) (s : World) :
    (seek_world (playerSeek w fuel mem song seek_time s)).pc.softwareVolume
      = s.pc.softwareVolume := by
  unfold playerSeek
  split
  · rfl
  · split
    · rfl
    · apply seek_world_bind (fun x => x.pc.softwareVolume = s.pc.softwareVolume)
      · split
        · exact set_current_song_volume mem song s
        · rfl
      · intro s1 h1
        apply seek_world_bind (fun x => x.pc.softwareVolume = s.pc.softwareVolume)
        · split
          · rw [player_command_volume w hw]
            exact h1
          · exact h1
        · intro s2 h2
          exact h2

theorem call_volume (w : Worker) (hw : ∀ t pc, (w t pc).softwareVolume = pc.softwareVolume)
    (fuel : Nat) (mem : Nat → Song) (c : Call) (s : World) :
    (∃ v, c = Call.setPlayerSoftwareVolume v) ∨
    (c.run w fuel mem s).pc.softwareVolume = s.pc.softwareVolume := by
  cases c with
  | playerPlay song => exact Or.inr (playerPlay_volume w hw fuel mem song s)
  | playerWait => exact Or.inr (playerWait_volume w hw fuel s)
  | playerKill => exact Or.inr (player_command_volume w hw fuel _ s)
  | playerPause => exact Or.inr (playerPause_volume w hw fuel s)
  | playerSetPause f => exact Or.inr (playerSetPause_volume w hw fuel f s)
  | clearPlayerError => exact Or.inr rfl
  | queueSong song => exact Or.inr (queueSong_volume mem song s)
  | setQueueState q => exact Or.inr rfl
  | playerQueueLock => exact Or.inr (playerQueueLock_volume w hw fuel s)
  | playerQueueUnlock => exact Or.inr (playerQueueUnlock_volume w hw fuel s)
  | playerSeek song t => exact Or.inr (playerSeek_volume w hw fuel mem song t s)
  | setPlayerCrossFade x => exact Or.inr rfl
  | setPlayerSoftwareVolume v => exact Or.inl ⟨v, rfl⟩

theorem setPlayerSoftwareVolume_value (volume : Int) (s : World) :
    (setPlayerSoftwareVolume volume s).pc.softwareVolume = min 1000 (max 0 volume) := by
  unfold setPlayerSoftwareVolume
  simp only
  split
  · omega
  · split <;> omega

theorem reachable_volume (w : Worker)
    (hw : ∀ t pc, (w t pc).softwareVolume = pc.softwareVolume) (mem : Nat → Song)
    (s : World) (hr : Reachable w mem s) :
    0 ≤ s.pc.softwareVolume ∧ s.pc.softwareVolume ≤ 1000 := by
  induction hr with
  | init b pc => simp [pc_init]
  | call c fuel _ ih =>
    rcases call_volume w hw fuel mem c _ with ⟨v, hc⟩ | h
    · subst hc
      show 0 ≤ (setPlayerSoftwareVolume v _).pc.softwareVolume ∧
        (setPlayerSoftwareVolume v _).pc.softwareVolume ≤ 1000
      rw [setPlayerSoftwareVolume_value]
      omega
    · rw [h]
      exact ih

/-- C7: `setPlayerSoftwareVolume(v)` stores `min(1000, max(0, v))`, and in every
world reached from `pc_init` through the calls of player_control.c, with a worker
that does not write `softwareVolume`, the stored volume lies in [0,1000]. -/
theorem softwareVolume_clamped (w : Worker) (mem : Nat → Song) (s : World) (v : Int)
    (hw : ∀ t pc, (w t pc).softwareVolume = pc.softwareVolume)
    (hr : Reachable w mem s) :
    (setPlayerSoftwareVolume v s).pc.softwareVolume = min 1000 (max 0 v) ∧
    (setPlayerSoftwareVolume 1500 s).pc.softwareVolume = 1000 ∧
    (setPlayerSoftwareVolume (-5) s).pc.softwareVolume = 0 ∧
    (pc_init s.pc.buffered_before_play s.pc).softwareVolume = 1000 ∧
    0 ≤ s.pc.softwareVolume ∧ s.pc.softwareVolume ≤ 1000 :=
  ⟨setPlayerSoftwareVolume_value v s, by rw [setPlayerSoftwareVolume_value]; decide,
    by rw [setPlayerSoftwareVolume_value]; decide, rfl, reachable_volume w hw mem s hr⟩

/-- Witness of C7: the world after `playerPlay`, `setPlayerSoftwareVolume(1500)`
and `playerPause`, with the worker that only acknowledges. -/
theorem softwareVolume_clamped_witness :
    (∀ t pc, (ack_worker t pc).softwareVolume = pc.softwareVolume) ∧
    Reachable ack_worker songs_example world_after_calls ∧
    (setPlayerSoftwareVolume 7 world_after_calls).pc.softwareVolume = min 1000 (max 0 7) ∧
    (setPlayerSoftwareVolume 1500 world_after_calls).pc.softwareVolume = 1000 ∧
    (setPlayerSoftwareVolume (-5) world_after_calls).pc.softwareVolume = 0 ∧
    (pc_init world_after_calls.pc.buffered_before_play world_after_calls.pc).softwareVolume
      = 1000 ∧
    0 ≤ world_after_calls.pc.softwareVolume ∧ world_after_calls.pc.softwareVolume ≤ 1000 :=
  have hw : ∀ t pc, (ack_worker t pc).softwareVolume = pc.softwareVolume := fun _ _ => rfl
  have hr : Reachable ack_worker songs_example world_after_calls :=
    Reachable.call _ 1 (Reachable.call _ 1 (Reachable.call _ 1 (Reachable.init 10 pc_zero)))
  ⟨hw, hr, softwareVolume_clamped ack_worker songs_example world_after_calls 7 hw hr⟩


/-! ## Commands, the queue lock and pausing -/

theorem player_command_wait_issued (w : Worker) : ∀ (fuel : Nat) (s : World),
    (player_command_wait w fuel s).world.issued = s.issued
  | 0, s => by
    unfold player_command_wait
    split <;> rfl
  | fuel + 1, s => by
    unfold player_command_wait
    split
    · rfl
    · rw [player_command_wait_issued w fuel]
      rfl

theorem player_command_issued (w : Worker) (fuel : Nat) (cmd : enum_player_command)
    (s : World) :
    (player_command w fuel cmd s).world.issued
      = s.issued ++ [(cmd, { s.pc with command := cmd })] := by
  unfold player_command
  rw [player_command_wait_issued]
  rfl

theorem player_command_wait_none (w : Worker) : ∀ (fuel : Nat) (s s' : World),
    player_command_wait w fuel s = .ok s' → s'.pc.command = PLAYER_COMMAND_NONE
  | 0, s, s', h => by
    unfold player_command_wait at h
    split at h
    · cases h
      assumption
    · cases h
  | fuel + 1, s, s', h => by
    unfold player_command_wait at h
    split at h
    · cases h
      assumption
    · exact player_command_wait_none w fuel _ s' h

theorem player_command_none (w : Worker) (fuel : Nat) (cmd : enum_player_command)
    (s s' : World) (h : player_command w fuel cmd s = .ok s') :
    s'.pc.command = PLAYER_COMMAND_NONE ∧
    s'.issued = s.issued ++ [(cmd, { s.pc with command := cmd })] := by
  refine ⟨player_command_wait_none w fuel _ s' h, ?_⟩
  have := player_command_issued w fuel cmd s
  rw [h] at this
  exact this

theorem player_command_one_round (w : Worker) (fuel : Nat) (hf : 0 < fuel)
    (cmd : enum_player_command) (hc : cmd ≠ PLAYER_COMMAND_NONE) (s : World)
    (hw : (w s.rounds { s.pc with command := cmd, notify := s.pc.notify + 1 }).command
      = PLAYER_COMMAND_NONE) :
    player_command w fuel cmd s = .ok (worker_round w (issue cmd s)) := by
  obtain ⟨n, rfl⟩ : ∃ n, fuel = n + 1 := ⟨fuel - 1, by omega⟩
  unfold player_command
  have h1 : (issue cmd s).pc.command ≠ PLAYER_COMMAND_NONE := hc
  have h2 : (worker_round w (issue cmd s)).pc.command = PLAYER_COMMAND_NONE := hw
  rw [player_command_wait, if_neg h1]
  cases n with
  | zero => rw [player_command_wait, if_pos h2]
  | succ n => rw [player_command_wait, if_pos h2]

theorem bind_ok {α β : Type} (o : Outcome α) (k : α → Outcome β) (b : β)
    (h : Except.bind o k = .ok b) : ∃ a, o = .ok a ∧ k a = .ok b := by
  cases o with
  | error e => cases h
  | ok a => exact ⟨a, rfl, h⟩

theorem set_current_song_command (mem : Nat → Song) (song : Option Nat) (s s' : World)
    (h : set_current_song mem song s = .ok s') : s'.pc.command = s.pc.command := by
  unfold set_current_song at h
  split at h
  · cases h
  · split at h
    · cases h
    · cases h
      rfl

theorem call_command_none (w : Worker) (fuel : Nat) (mem : Nat → Song) (c : Call)
    (s s' : World) (h0 : s.pc.command = PLAYER_COMMAND_NONE)
    (h : c.outcome w fuel mem s = .ok s') : s'.pc.command = PLAYER_COMMAND_NONE := by
  cases c with
  | playerPlay song =>
    simp only [Call.outcome, playerPlay] at h
    split at h
    · cases h
    · obtain ⟨s1, _, h2⟩ := bind_ok _ _ _ h
      obtain ⟨s2, _, h4⟩ := bind_ok _ _ _ h2
      exact (player_command_none w fuel _ _ _ h4).1
  | playerWait =>
    simp only [Call.outcome, playerWait] at h
    obtain ⟨s1, _, h2⟩ := bind_ok _ _ _ h
    split at h2
    · cases h2
    · obtain ⟨s2, h3, h4⟩ := bind_ok _ _ _ h2
      cases h4
      exact (player_command_none w fuel _ _ _ h3).1
  | playerKill => exact (player_command_none w fuel _ _ _ h).1
  | playerPause =>
    simp only [Call.outcome, playerPause] at h
    split at h
    · exact (player_command_none w fuel _ _ _ h).1
    · cases h
      exact h0
  | playerSetPause f =>
    simp only [Call.outcome, playerSetPause, playerPause] at h
    split at h
    · cases h
      exact h0
    · split at h
      · split at h
        · exact (player_command_none w fuel _ _ _ h).1
        · cases h
          exact h0
      · cases h
        exact h0
    · split at h
      · split at h
        · exact (player_command_none w fuel _ _ _ h).1
        · cases h
          exact h0
      · cases h
        exact h0
  | clearPlayerError =>
    cases h
    exact h0
  | queueSong song =>
    simp only [Call.outcome, queueSong] at h
    split at h
    · cases h
    · obtain ⟨s1, h1, h2⟩ := bind_ok _ _ _ h
      cases h2
      exact (set_current_song_command mem song s s1 h1).trans h0
  | setQueueState q =>
    cases h
    exact h0
  | playerQueueLock =>
    simp only [Call.outcome, playerQueueLock] at h
    split at h
    · cases h
    · obtain ⟨s1, h1, h2⟩ := bind_ok _ _ _ h
      split at h2
      · cases h2
      · cases h2
        exact (player_command_none w fuel _ _ _ h1).1
  | playerQueueUnlock =>
    simp only [Call.outcome, playerQueueUnlock] at h
    obtain ⟨s1, h1, h2⟩ := bind_ok _ _ _ h
    split at h2
    · cases h2
    · cases h2
      split at h1
      · exact (player_command_none w fuel _ _ _ h1).1
      · cases h1
        exact h0
  | playerSeek song t =>
    simp only [Call.outcome, playerSeek] at h
    obtain ⟨r, h1, h2⟩ := bind_ok _ _ _ h
    cases h2
    split at h1
    · cases h1
    · split at h1
      · cases h1
        exact h0
      · obtain ⟨s1, h3, h4⟩ := bind_ok _ _ _ h1
        obtain ⟨s2, h5, h6⟩ := bind_ok _ _ _ h4
        cases h6
        have hs1 : s1.pc.command = PLAYER_COMMAND_NONE := by
          split at h3
          · exact (set_current_song_command mem song s s1 h3).trans h0
          · cases h3
            exact h0
        split at h5
        · exact (player_command_none w fuel _ _ _ h5).1
        · cases h5
          exact hs1
  | setPlayerCrossFade x =>
    cases h
    exact h0
  | setPlayerSoftwareVolume v =>
    cases h
    exact h0

/-- C11: in every sequence of calls into player_control.c that starts with
`command == PLAYER_COMMAND_NONE`, with any worker, the command is
`PLAYER_COMMAND_NONE` at the return of every call that returns; and whenever
`player_command` returns, the command reads `PLAYER_COMMAND_NONE` and exactly the
given command has been stored. -/
theorem command_none_at_return (w : Worker) (mem : Nat → Song) (calls : List (Nat × Call))
    (s s' : World) (h0 : s.pc.command = PLAYER_COMMAND_NONE)
    (h : calls_outcome w mem calls s = .ok s') :
    s'.pc.command = PLAYER_COMMAND_NONE ∧
    ∀ fuel cmd x x', player_command w fuel cmd x = .ok x' →
      x'.pc.command = PLAYER_COMMAND_NONE ∧
      x'.issued = x.issued ++ [(cmd, { x.pc with command := cmd })] := by
  refine ⟨?_, fun fuel cmd x x' hx => player_command_none w fuel cmd x x' hx⟩
  induction calls generalizing s with
  | nil =>
    cases h
    exact h0
  | cons fc rest ih =>
    obtain ⟨fuel, c⟩ := fc
    simp only [calls_outcome] at h
    obtain ⟨s1, h1, h2⟩ := bind_ok _ _ _ h
    exact ih s1 (call_command_none w fuel mem c s s1 h0 h1) h2

/-- Witness of C11: play, pause, seek, lock, unlock, resume and wait, with the
worker of the spec. -/
theorem command_none_at_return_witness :
    world_init.pc.command = PLAYER_COMMAND_NONE ∧
    calls_outcome spec_worker songs_example calls_example world_init
      = .ok world_after_sequence ∧
    world_after_sequence.pc.command = PLAYER_COMMAND_NONE ∧
    ∀ fuel cmd x x', player_command spec_worker fuel cmd x = .ok x' →
      x'.pc.command = PLAYER_COMMAND_NONE ∧
      x'.issued = x.issued ++ [(cmd, { x.pc with command := cmd })] :=
  ⟨rfl, by decide,
    command_none_at_return spec_worker songs_example calls_example world_init
      world_after_sequence rfl (by decide)⟩

theorem playerQueueUnlock_unlocked (w : Worker) (fuel : Nat) (s : World)
    (h : s.pc.queueLockState = PLAYER_QUEUE_UNLOCKED) :
    playerQueueUnlock w fuel s = .ok s := by
  unfold playerQueueUnlock
  simp [h, bind, Except.bind]

theorem playerQueueUnlock_times_unlocked (w : Worker) (fuel : Nat) (s : World)
    (h : s.pc.queueLockState = PLAYER_QUEUE_UNLOCKED) :
    ∀ n, playerQueueUnlock_times w fuel n s = .ok s
  | 0 => rfl
  | n + 1 => by
    rw [playerQueueUnlock_times, playerQueueUnlock_unlocked w fuel s h]
    exact playerQueueUnlock_times_unlocked w fuel s h n

theorem playerQueueUnlock_locked_issued (w : Worker) (fuel : Nat) (s : World)
    (h : s.pc.queueLockState = PLAYER_QUEUE_LOCKED) :
    (playerQueueUnlock w fuel s).world.issued = s.issued ++
      [(PLAYER_COMMAND_UNLOCK_QUEUE, { s.pc with command := PLAYER_COMMAND_UNLOCK_QUEUE })] := by
  have h0 := player_command_issued w fuel PLAYER_COMMAND_UNLOCK_QUEUE s
  generalize s.issued ++
    [(PLAYER_COMMAND_UNLOCK_QUEUE, { s.pc with command := PLAYER_COMMAND_UNLOCK_QUEUE })]
    = l at h0 ⊢
  unfold playerQueueUnlock
  rw [if_pos h]
  apply world_bind (fun x => x.issued = l)
  · exact h0
  · intro s1 h1
    split <;> exact h1

/-- C12: with the queue unlocked `playerQueueUnlock` returns with the world as it
was (no command stored, no field changed), so any number of calls in a row leaves
the world of a single call; with the queue locked the call stores exactly one
command, UnlockQueue, whatever the worker does, and with a worker that answers
it by releasing the lock within the rounds allowed the call returns with the
queue unlocked. -/
theorem playerQueueUnlock_idempotent (w : Worker) (fuel : Nat) (s : World) :
    (s.pc.queueLockState = PLAYER_QUEUE_UNLOCKED →
      playerQueueUnlock w fuel s = .ok s ∧
      ∀ n, playerQueueUnlock_times w fuel (n + 1) s = playerQueueUnlock w fuel s) ∧
    (s.pc.queueLockState = PLAYER_QUEUE_LOCKED →
      (playerQueueUnlock w fuel s).world.issued = s.issued ++
        [(PLAYER_COMMAND_UNLOCK_QUEUE,
          { s.pc with command := PLAYER_COMMAND_UNLOCK_QUEUE })] ∧
      (0 < fuel → AnswersUnlock w →
        ∃ s', playerQueueUnlock w fuel s = .ok s' ∧
          s'.pc.queueLockState = PLAYER_QUEUE_UNLOCKED ∧
          s'.pc.command = PLAYER_COMMAND_NONE)) := by
  refine ⟨fun h => ⟨playerQueueUnlock_unlocked w fuel s h, fun n => ?_⟩,
    fun h => ⟨playerQueueUnlock_locked_issued w fuel s h, fun hf hw => ?_⟩⟩
  · rw [playerQueueUnlock_times_unlocked w fuel s h, playerQueueUnlock_unlocked w fuel s h]
  · have ha := hw s.rounds
      { s.pc with command := PLAYER_COMMAND_UNLOCK_QUEUE, notify := s.pc.notify + 1 } rfl
    have h1 := player_command_one_round w fuel hf PLAYER_COMMAND_UNLOCK_QUEUE (by decide) s ha.1
    refine ⟨worker_round w (issue PLAYER_COMMAND_UNLOCK_QUEUE s), ?_, ha.2, ha.1⟩
    unfold playerQueueUnlock
    rw [if_pos h, h1]
    have h2 : (worker_round w (issue PLAYER_COMMAND_UNLOCK_QUEUE s)).pc.queueLockState
        = PLAYER_QUEUE_UNLOCKED := ha.2
    simp [bind, Except.bind, h2]

theorem spec_worker_answers_unlock : AnswersUnlock spec_worker := by
  intro t pc h
  simp [spec_worker, h]

theorem spec_worker_answers_lock : AnswersLock spec_worker := by
  intro t pc h
  simp [spec_worker, h]

theorem spec_worker_answers_pause : AnswersPause spec_worker := by
  intro t pc h
  simp [spec_worker, h]

/-- Witness of C12: the call in the world right after `pc_init` (queue unlocked)
and in a world with the queue locked, with the worker of the spec. -/
theorem playerQueueUnlock_idempotent_witness :
    world_init.pc.queueLockState = PLAYER_QUEUE_UNLOCKED ∧
    world_locked.pc.queueLockState = PLAYER_QUEUE_LOCKED ∧
    AnswersUnlock spec_worker ∧
    (playerQueueUnlock spec_worker 1 world_init = .ok world_init ∧
      ∀ n, playerQueueUnlock_times spec_worker 1 (n + 1) world_init
        = playerQueueUnlock spec_worker 1 world_init) ∧
    ((playerQueueUnlock spec_worker 1 world_locked).world.issued = world_locked.issued ++
        [(PLAYER_COMMAND_UNLOCK_QUEUE,
          { world_locked.pc with command := PLAYER_COMMAND_UNLOCK_QUEUE })] ∧
      ∃ s', playerQueueUnlock spec_worker 1 world_locked = .ok s' ∧
          s'.pc.queueLockState = PLAYER_QUEUE_UNLOCKED ∧
          s'.pc.command = PLAYER_COMMAND_NONE) :=
  ⟨rfl, rfl, spec_worker_answers_unlock,
    (playerQueueUnlock_idempotent spec_worker 1 world_init).1 rfl,
    ((playerQueueUnlock_idempotent spec_worker 1 world_locked).2 rfl).1,
    ((playerQueueUnlock_idempotent spec_worker 1 world_locked).2 rfl).2 (by decide)
      spec_worker_answers_unlock⟩

theorem playerQueueLock_locked (w : Worker) (fuel : Nat) (s : World)
    (h : s.pc.queueLockState = PLAYER_QUEUE_LOCKED) :
    playerQueueLock w fuel s = .error (Fault.assertion, s) := by
  unfold playerQueueLock
  simp [h]

theorem playerQueueLock_issued (w : Worker) (fuel : Nat) (s : World)
    (h : s.pc.queueLockState = PLAYER_QUEUE_UNLOCKED) :
    (playerQueueLock w fuel s).world.issued = s.issued ++
      [(PLAYER_COMMAND_LOCK_QUEUE, { s.pc with command := PLAYER_COMMAND_LOCK_QUEUE })] := by
  have h0 := player_command_issued w fuel PLAYER_COMMAND_LOCK_QUEUE s
  generalize s.issued ++
    [(PLAYER_COMMAND_LOCK_QUEUE, { s.pc with command := PLAYER_COMMAND_LOCK_QUEUE })]
    = l at h0 ⊢
  unfold playerQueueLock
  rw [if_neg (not_not.mpr h)]
  apply world_bind (fun x => x.issued = l)
  · exact h0
  · intro s1 h1
    split <;> exact h1

theorem playerQueueLock_returns_locked (w : Worker) (fuel : Nat) (s s' : World)
    (h : playerQueueLock w fuel s = .ok s') :
    s'.pc.queueLockState = PLAYER_QUEUE_LOCKED := by
  unfold playerQueueLock at h
  split at h
  · cases h
  · obtain ⟨s1, _, h2⟩ := bind_ok _ _ _ h
    split at h2
    · cases h2
    · cases h2
      rename_i hl
      exact not_not.mp hl

/-- C13: `playerQueueLock` called with the queue locked ends in its entry
assertion with the world as it was (no command stored); called with the queue
unlocked it stores exactly one command, LockQueue, and with a worker that answers
it by setting the lock within the rounds allowed it returns with the queue
locked; after any call that returned, a further `playerQueueLock` ends in the
entry assertion. -/
theorem playerQueueLock_exclusive (w : Worker) (fuel : Nat) (s : World) :
    (s.pc.queueLockState = PLAYER_QUEUE_LOCKED →
      playerQueueLock w fuel s = .error (Fault.assertion, s)) ∧
    (s.pc.queueLockState = PLAYER_QUEUE_UNLOCKED →
      (playerQueueLock w fuel s).world.issued = s.issued ++
        [(PLAYER_COMMAND_LOCK_QUEUE, { s.pc with command := PLAYER_COMMAND_LOCK_QUEUE })] ∧
      (0 < fuel → AnswersLock w →
        ∃ s', playerQueueLock w fuel s = .ok s' ∧
          s'.pc.queueLockState = PLAYER_QUEUE_LOCKED ∧
          s'.pc.command = PLAYER_COMMAND_NONE)) ∧
    (∀ s', playerQueueLock w fuel s = .ok s' →
      ∀ w2 fuel2, playerQueueLock w2 fuel2 s' = .error (Fault.assertion, s')) := by
  refine ⟨playerQueueLock_locked w fuel s,
    fun h => ⟨playerQueueLock_issued w fuel s h, fun hf hw => ?_⟩,
    fun s' h w2 fuel2 =>
      playerQueueLock_locked w2 fuel2 s' (playerQueueLock_returns_locked w fuel s s' h)⟩
  have ha := hw s.rounds
    { s.pc with command := PLAYER_COMMAND_LOCK_QUEUE, notify := s.pc.notify + 1 } rfl
  have h1 := player_command_one_round w fuel hf PLAYER_COMMAND_LOCK_QUEUE (by decide) s ha.1
  refine ⟨worker_round w (issue PLAYER_COMMAND_LOCK_QUEUE s), ?_, ha.2, ha.1⟩
  unfold playerQueueLock
  rw [if_neg (not_not.mpr h)]
  have h2 : (worker_round w (issue PLAYER_COMMAND_LOCK_QUEUE s)).pc.queueLockState
      = PLAYER_QUEUE_LOCKED := ha.2
  simp [bind, Except.bind, h1, h2]

/-- Witness of C13: the call in a world with the queue locked and in the world
right after `pc_init`, with the worker of the spec. -/
theorem playerQueueLock_exclusive_witness :
    world_locked.pc.queueLockState = PLAYER_QUEUE_LOCKED ∧
    world_init.pc.queueLockState = PLAYER_QUEUE_UNLOCKED ∧
    AnswersLock spec_worker ∧
    playerQueueLock spec_worker 1 world_locked = .error (Fault.assertion, world_locked) ∧
    ((playerQueueLock spec_worker 1 world_init).world.issued = world_init.issued ++
        [(PLAYER_COMMAND_LOCK_QUEUE,
          { world_init.pc with command := PLAYER_COMMAND_LOCK_QUEUE })] ∧
      ∃ s', playerQueueLock spec_worker 1 world_init = .ok s' ∧
          s'.pc.queueLockState = PLAYER_QUEUE_LOCKED ∧
          s'.pc.command = PLAYER_COMMAND_NONE) ∧
    (∀ s', playerQueueLock spec_worker 1 world_init = .ok s' →
      ∀ w2 fuel2, playerQueueLock w2 fuel2 s' = .error (Fault.assertion, s')) :=
  ⟨rfl, rfl, spec_worker_answers_lock,
    (playerQueueLock_exclusive spec_worker 1 world_locked).1 rfl,
    ⟨((playerQueueLock_exclusive spec_worker 1 world_init).2.1 rfl).1,
      ((playerQueueLock_exclusive spec_worker 1 world_init).2.1 rfl).2 (by decide)
        spec_worker_answers_lock⟩,
    (playerQueueLock_exclusive spec_worker 1 world_init).2.2⟩

/-- C14: for a song with a URL, `queueSong` called with `queueState` Blank stores
no command and returns with `next_song` the song, `fileTime` the time of its tag
(0 without a tag) and `queueState` Full, every other field as it was; called with
`queueState` Full it ends in its entry assertion with the world as it was. -/
theorem queueSong_effect (mem : Nat → Song) (song : Nat) (s : World)
    (hurl : (mem song).url ≠ none) :
    (s.pc.queueState = PLAYER_QUEUE_BLANK →
      queueSong mem (some song) s = .ok { s with pc := { s.pc with
        fileTime := (match (mem song).tag with
          | some t => t.time
          | none => 0)
        next_song := some song
        queueState := PLAYER_QUEUE_FULL } }) ∧
    (s.pc.queueState = PLAYER_QUEUE_FULL →
      queueSong mem (some song) s = .error (Fault.assertion, s)) := by
  constructor
  · intro h
    unfold queueSong
    simp [h, bind, Except.bind, set_current_song, hurl]
  · intro h
    unfold queueSong
    simp [h]

/-- Witness of C14: queueing the song at address 1 (tag of 240 seconds) while a
song plays and the queue is blank, and again when it is full. -/
theorem queueSong_effect_witness :
    (songs_example 1).url ≠ none ∧
    world_playing.pc.queueState = PLAYER_QUEUE_BLANK ∧
    world_queued.pc.queueState = PLAYER_QUEUE_FULL ∧
    queueSong songs_example (some 1) world_playing = .ok { world_playing with
      pc := { world_playing.pc with
        fileTime := (match (songs_example 1).tag with
          | some t => t.time
          | none => 0)
        next_song := some 1
        queueState := PLAYER_QUEUE_FULL } } ∧
    queueSong songs_example (some 1) world_queued = .error (Fault.assertion, world_queued) :=
  ⟨by decide, rfl, rfl,
    (queueSong_effect songs_example 1 world_playing (by decide)).1 rfl,
    (queueSong_effect songs_example 1 world_queued (by decide)).2 rfl⟩

theorem playerPause_active_issued (w : Worker) (fuel : Nat) (s : World)
    (h : s.pc.state ≠ PLAYER_STATE_STOP) :
    (playerPause w fuel s).world.issued = s.issued ++
      [(PLAYER_COMMAND_PAUSE, { s.pc with command := PLAYER_COMMAND_PAUSE })] := by
  unfold playerPause
  rw [if_pos h]
  exact player_command_issued w fuel _ s

theorem playerPause_stopped (w : Worker) (fuel : Nat) (s : World)
    (h : s.pc.state = PLAYER_STATE_STOP) : playerPause w fuel s = .ok s := by
  unfold playerPause
  simp [h]

theorem playerPause_answered (w : Worker) (fuel : Nat) (hf : 0 < fuel) (hw : AnswersPause w)
    (s : World) (h : s.pc.state ≠ PLAYER_STATE_STOP) :
    playerPause w fuel s = .ok (worker_round w (issue PLAYER_COMMAND_PAUSE s)) ∧
    (worker_round w (issue PLAYER_COMMAND_PAUSE s)).pc.state = toggle_pause s.pc.state := by
  have ha := hw s.rounds
    { s.pc with command := PLAYER_COMMAND_PAUSE, notify := s.pc.notify + 1 } rfl
  refine ⟨?_, ha.2⟩
  unfold playerPause
  rw [if_pos h]
  exact player_command_one_round w fuel hf PLAYER_COMMAND_PAUSE (by decide) s ha.1

/-- C15: `playerPause` stores exactly one command, Pause, when the state is
Playing or Paused, whatever the worker does, and when the state is Stopped it
returns with the world as it was: no command stored and no field changed. -/
theorem playerPause_effect (w : Worker) (fuel : Nat) (s : World) :
    (s.pc.state = PLAYER_STATE_PLAY ∨ s.pc.state = PLAYER_STATE_PAUSE →
      (playerPause w fuel s).world.issued = s.issued ++
        [(PLAYER_COMMAND_PAUSE, { s.pc with command := PLAYER_COMMAND_PAUSE })] ∧
      (0 < fuel → AnswersPause w → ∃ s', playerPause w fuel s = .ok s' ∧
        s'.pc.state = toggle_pause s.pc.state ∧ s'.pc.command = PLAYER_COMMAND_NONE)) ∧
    (s.pc.state = PLAYER_STATE_STOP → playerPause w fuel s = .ok s) := by
  refine ⟨fun h => ?_, playerPause_stopped w fuel s⟩
  have hs : s.pc.state ≠ PLAYER_STATE_STOP := by
    rcases h with h | h <;> rw [h] <;> decide
  refine ⟨playerPause_active_issued w fuel s hs, fun hf hw => ?_⟩
  have ha := playerPause_answered w fuel hf hw s hs
  exact ⟨_, ha.1, ha.2, (hw s.rounds
    { s.pc with command := PLAYER_COMMAND_PAUSE, notify := s.pc.notify + 1 } rfl).1⟩

/-- Witness of C15: `playerPause` while a song plays and right after `pc_init`
(state Stopped), with the worker of the spec. -/
theorem playerPause_effect_witness :
    (world_playing.pc.state = PLAYER_STATE_PLAY ∨
      world_playing.pc.state = PLAYER_STATE_PAUSE) ∧
    world_init.pc.state = PLAYER_STATE_STOP ∧
    AnswersPause spec_worker ∧
    ((playerPause spec_worker 1 world_playing).world.issued = world_playing.issued ++
        [(PLAYER_COMMAND_PAUSE, { world_playing.pc with command := PLAYER_COMMAND_PAUSE })] ∧
      ∃ s', playerPause spec_worker 1 world_playing = .ok s' ∧
        s'.pc.state = toggle_pause world_playing.pc.state ∧
        s'.pc.command = PLAYER_COMMAND_NONE) ∧
    playerPause spec_worker 1 world_init = .ok world_init :=
  ⟨Or.inl rfl, rfl, spec_worker_answers_pause,
    ⟨((playerPause_effect spec_worker 1 world_playing).1 (Or.inl rfl)).1,
      ((playerPause_effect spec_worker 1 world_playing).1 (Or.inl rfl)).2 (by decide)
        spec_worker_answers_pause⟩,
    (playerPause_effect spec_worker 1 world_init).2 rfl⟩

theorem playerSetPause_issued (w : Worker) (fuel : Nat) (pause_flag : Int) (s : World) :
    (playerSetPause w fuel pause_flag s).world.issued = s.issued ++
      (if (s.pc.state = PLAYER_STATE_PLAY ∧ pause_flag ≠ 0) ∨
          (s.pc.state = PLAYER_STATE_PAUSE ∧ pause_flag = 0)
        then [(PLAYER_COMMAND_PAUSE, { s.pc with command := PLAYER_COMMAND_PAUSE })]
        else []) := by
  unfold playerSetPause
  split
  · rename_i hs
    simp [hs, Outcome.world]
  · rename_i hs
    by_cases hf : pause_flag = 0
    · simp [hs, hf, Outcome.world]
    · rw [if_pos hf, playerPause_active_issued w fuel s (by rw [hs]; decide)]
      simp [hs, hf]
  · rename_i hs
    by_cases hf : pause_flag = 0
    · rw [if_pos hf, playerPause_active_issued w fuel s (by rw [hs]; decide)]
      simp [hs, hf]
    · simp [hs, hf, Outcome.world]

theorem playerSetPause_twice (w : Worker) (fuel : Nat) (hf : 0 < fuel) (hw : AnswersPause w)
    (pause_flag : Int) (s : World) :
    (playerSetPause w fuel pause_flag s).bind (playerSetPause w fuel pause_flag)
      = playerSetPause w fuel pause_flag s := by
  cases hs : s.pc.state with
  | PLAYER_STATE_STOP =>
    have h1 : playerSetPause w fuel pause_flag s = .ok s := by
      unfold playerSetPause
      simp [hs]
    rw [h1]
    exact h1
  | PLAYER_STATE_PLAY =>
    by_cases hfl : pause_flag = 0
    · have h1 : playerSetPause w fuel pause_flag s = .ok s := by
        unfold playerSetPause
        simp [hs, hfl]
      rw [h1]
      exact h1
    · have ha := playerPause_answered w fuel hf hw s (by rw [hs]; decide)
      have h1 : playerSetPause w fuel pause_flag s
          = .ok (worker_round w (issue PLAYER_COMMAND_PAUSE s)) := by
        unfold playerSetPause
        simp [hs, hfl, ha.1]
      have h2 : (worker_round w (issue PLAYER_COMMAND_PAUSE s)).pc.state
          = PLAYER_STATE_PAUSE := by
        rw [ha.2, hs]
        rfl
      rw [h1]
      show playerSetPause w fuel pause_flag _ = _
      unfold playerSetPause
      simp [h2, hfl]
  | PLAYER_STATE_PAUSE =>
    by_cases hfl : pause_flag = 0
    · have ha := playerPause_answered w fuel hf hw s (by rw [hs]; decide)
      have h1 : playerSetPause w fuel pause_flag s
          = .ok (worker_round w (issue PLAYER_COMMAND_PAUSE s)) := by
        unfold playerSetPause
        simp [hs, hfl, ha.1]
      have h2 : (worker_round w (issue PLAYER_COMMAND_PAUSE s)).pc.state
          = PLAYER_STATE_PLAY := by
        rw [ha.2, hs]
        rfl
      rw [h1]
      show playerSetPause w fuel pause_flag _ = _
      unfold playerSetPause
      simp [h2, hfl]
    · have h1 : playerSetPause w fuel pause_flag s = .ok s := by
        unfold playerSetPause
        simp [hs, hfl]
      rw [h1]
      exact h1

/-- C16: `playerSetPause(flag)` stores a Pause command exactly when the state is
Playing and the flag is not 0, or the state is Paused and the flag is 0, and
stores nothing otherwise (in particular nothing when Stopped), whatever the
worker does; with a worker that answers Pause by toggling between Playing and
Paused, two calls in a row with the same flag leave what one call leaves. -/
theorem playerSetPause_effect (w : Worker) (fuel : Nat) (pause_flag : Int) (s : World) :
    (playerSetPause w fuel pause_flag s).world.issued = s.issued ++
      (if (s.pc.state = PLAYER_STATE_PLAY ∧ pause_flag ≠ 0) ∨
          (s.pc.state = PLAYER_STATE_PAUSE ∧ pause_flag = 0)
        then [(PLAYER_COMMAND_PAUSE, { s.pc with command := PLAYER_COMMAND_PAUSE })]
        else []) ∧
    (s.pc.state = PLAYER_STATE_STOP → playerSetPause w fuel pause_flag s = .ok s) ∧
    (0 < fuel → AnswersPause w →
      (playerSetPause w fuel pause_flag s).bind (playerSetPause w fuel pause_flag)
        = playerSetPause w fuel pause_flag s) := by
  refine ⟨playerSetPause_issued w fuel pause_flag s, fun h => ?_,
    fun hf hw => playerSetPause_twice w fuel hf hw pause_flag s⟩
  unfold playerSetPause
  simp [h]

/-- Witness of C16: `playerSetPause(1)` while a song plays, with the worker of
the spec. -/
theorem playerSetPause_effect_witness :
    AnswersPause spec_worker ∧
    (playerSetPause spec_worker 1 1 world_playing).world.issued = world_playing.issued ++
      (if (world_playing.pc.state = PLAYER_STATE_PLAY ∧ (1 : Int) ≠ 0) ∨
          (world_playing.pc.state = PLAYER_STATE_PAUSE ∧ (1 : Int) = 0)
        then [(PLAYER_COMMAND_PAUSE, { world_playing.pc with command := PLAYER_COMMAND_PAUSE })]
        else []) ∧
    (world_playing.pc.state = PLAYER_STATE_STOP →
      playerSetPause spec_worker 1 1 world_playing = .ok world_playing) ∧
    (playerSetPause spec_worker 1 1 world_playing).bind (playerSetPause spec_worker 1 1)
      = playerSetPause spec_worker 1 1 world_playing :=
  ⟨spec_worker_answers_pause,
    (playerSetPause_effect spec_worker 1 1 world_playing).1,
    (playerSetPause_effect spec_worker 1 1 world_playing).2.1,
    (playerSetPause_effect spec_worker 1 1 world_playing).2.2 (by decide)
      spec_worker_answers_pause⟩

/-! ## The error message -/

theorem snprintf_s_fits (size : Nat) (before arg after : List Char)
    (h : before.length + arg.length + after.length < size) :
    snprintf_s size before arg after = before ++ arg ++ after := by
  unfold snprintf_s
  apply List.take_of_length_le
  simp only [List.length_append]
  omega

theorem snprintf_s_nonempty (size : Nat) (before arg after : List Char)
    (hs : 1 < size) (hb : before ≠ []) : snprintf_s size before arg after ≠ [] := by
  unfold snprintf_s
  cases before with
  | nil => exact absurd rfl hb
  | cons c rest =>
    obtain ⟨n, hn⟩ : ∃ n, size - 1 = n + 1 := ⟨size - 2, by omega⟩
    rw [hn]
    simp

/-- C17: `getPlayerErrorStr` returns, for the errors FileNotFound, File and
UnkType, a message that contains the URL that `get_song_url` gives for the
errored song (the URL fits `path_max_tmp`); for Audio and System a text that does
not depend on the errored song, the URL function or the path limit; and NULL
exactly when the error is NoError. -/
theorem getPlayerErrorStr_messages (MPD_PATH_MAX : Nat)
    (get_song_url : Option Nat → List Char) (pc : player_control)
    (hlen : (get_song_url pc.errored_song).length < MPD_PATH_MAX) :
    (pc.error = PLAYER_ERROR_FILENOTFOUND ∨ pc.error = PLAYER_ERROR_FILE ∨
        pc.error = PLAYER_ERROR_UNKTYPE →
      ∃ msg, getPlayerErrorStr MPD_PATH_MAX get_song_url pc = some msg ∧
        get_song_url pc.errored_song <:+: msg) ∧
    (pc.error = PLAYER_ERROR_AUDIO ∨ pc.error = PLAYER_ERROR_SYSTEM →
      ∃ msg, getPlayerErrorStr MPD_PATH_MAX get_song_url pc = some msg ∧
        ∀ path_max url song,
          getPlayerErrorStr path_max url { pc with errored_song := song } = some msg) ∧
    (getPlayerErrorStr MPD_PATH_MAX get_song_url pc = none ↔
      pc.error = PLAYER_ERROR_NOERROR) := by
  refine ⟨?_, ?_, ?_⟩
  · rintro (h | h | h)
    · refine ⟨"file ".toList ++ [dquote] ++ get_song_url pc.errored_song ++
        ([dquote] ++ " does not exist or is inaccessible".toList), ?_, ⟨_, _, rfl⟩⟩
      unfold getPlayerErrorStr
      simp only [h]
      rw [snprintf_s_fits _ _ _ _ (by simp; omega)]
      simp
    · refine ⟨"problems decoding ".toList ++ [dquote] ++ get_song_url pc.errored_song ++
        [dquote], ?_, ⟨_, _, rfl⟩⟩
      unfold getPlayerErrorStr
      simp only [h]
      rw [snprintf_s_fits _ _ _ _ (by simp; omega)]
      simp
    · refine ⟨"file type of ".toList ++ [dquote] ++ get_song_url pc.errored_song ++
        ([dquote] ++ " is unknown".toList), ?_, ⟨_, _, rfl⟩⟩
      unfold getPlayerErrorStr
      simp only [h]
      rw [snprintf_s_fits _ _ _ _ (by simp; omega)]
      simp
  · rintro (h | h)
    · refine ⟨"problems opening audio device".toList, ?_, fun _ _ _ => ?_⟩
      · unfold getPlayerErrorStr
        simp [h]
      · unfold getPlayerErrorStr
        simp [h]
    · refine ⟨"system error occured".toList, ?_, fun _ _ _ => ?_⟩
      · unfold getPlayerErrorStr
        simp [h]
      · unfold getPlayerErrorStr
        simp [h]
  · unfold getPlayerErrorStr
    cases h : pc.error
    · simp
    · simp only [reduceCtorEq, iff_false]
      rw [if_pos (snprintf_s_nonempty _ _ _ _ (by omega) (by simp))]
      simp
    · simp
    · simp
    · simp only [reduceCtorEq, iff_false]
      rw [if_pos (snprintf_s_nonempty _ _ _ _ (by omega) (by simp))]
      simp
    · simp only [reduceCtorEq, iff_false]
      rw [if_pos (snprintf_s_nonempty _ _ _ _ (by omega) (by simp))]
      simp

/-- Witness of C17: the message for a song that could not be found, with a path
limit of 4096. -/
theorem getPlayerErrorStr_messages_witness :
    (url_example world_notfound.pc.errored_song).length < 4096 ∧
    (∃ msg, getPlayerErrorStr 4096 url_example world_notfound.pc = some msg ∧
      url_example world_notfound.pc.errored_song <:+: msg) ∧
    getPlayerErrorStr 4096 url_example world_notfound.pc
      = some ("file ".toList ++ [dquote] ++ "song.ogg".toList ++ [dquote] ++
          " does not exist or is inaccessible".toList) ∧
    (getPlayerErrorStr 4096 url_example world_init.pc = none ↔
      world_init.pc.error = PLAYER_ERROR_NOERROR) :=
  ⟨by decide,
    (getPlayerErrorStr_messages 4096 url_example world_notfound.pc (by decide)).1 (Or.inl rfl),
    by decide,
    (getPlayerErrorStr_messages 4096 url_example world_init.pc (by decide)).2.2⟩

/-! ## The fields that the callers write -/

theorem tdiv_time_base (d : Int) (h : 0 ≤ d) : Int.tdiv d AV_TIME_BASE = d / 1000000 :=
  Int.tdiv_eq_ediv h (by decide)

/-- C19 (as amended): `ffmpeg_decode` reports 0 for an unknown duration, and for a
known duration `d` with `0 <= d < 2^31 * AV_TIME_BASE` it reports the whole seconds
`d / AV_TIME_BASE`; that value differs from the one reported for an unknown
duration exactly when `d` is at least one second (`AV_TIME_BASE`), so a known
duration below one second, 0 included, is reported like an unknown one.
`ffmpeg_stream_tag` computes the same value. -/
theorem ffmpeg_total_time_reported (d : Int) (h0 : 0 ≤ d)
    (h1 : d < 2147483648 * AV_TIME_BASE) :
    ffmpeg_total_time AV_NOPTS_VALUE = 0 ∧
    ffmpeg_total_time d = d / AV_TIME_BASE ∧
    (ffmpeg_total_time d ≠ ffmpeg_total_time AV_NOPTS_VALUE ↔ AV_TIME_BASE ≤ d) ∧
    ffmpeg_tag_time d = ffmpeg_total_time d := by
  have hn : d ≠ AV_NOPTS_VALUE := by
    unfold AV_NOPTS_VALUE
    omega
  have hv : ffmpeg_total_time d = d / AV_TIME_BASE := by
    unfold ffmpeg_total_time
    rw [if_pos hn, tdiv_time_base d h0]
    unfold AV_TIME_BASE at h1 ⊢
    unfold wrap32
    omega
  have hz : ffmpeg_total_time AV_NOPTS_VALUE = 0 := by decide
  refine ⟨hz, hv, ?_, rfl⟩
  rw [hz, hv]
  unfold AV_TIME_BASE
  omega

/-- Witness of C19 (as amended): a stream of four minutes. -/
theorem ffmpeg_total_time_reported_witness :
    (0 : Int) ≤ 240000000 ∧ (240000000 : Int) < 2147483648 * AV_TIME_BASE ∧
    ffmpeg_total_time AV_NOPTS_VALUE = 0 ∧
    ffmpeg_total_time 240000000 = 240000000 / AV_TIME_BASE ∧
    (ffmpeg_total_time 240000000 ≠ ffmpeg_total_time AV_NOPTS_VALUE ↔
      AV_TIME_BASE ≤ 240000000) ∧
    ffmpeg_tag_time 240000000 = ffmpeg_total_time 240000000 :=
  ⟨by decide, by decide, ffmpeg_total_time_reported 240000000 (by decide) (by decide)⟩

/-- Counterexample to C19 as stated: the known durations 0 and 999999 (just below one
second) are reported as 0, the value reported for an unknown duration. -/
theorem ffmpeg_zero_length_reported_as_unknown :
    (0 : Int) ≠ AV_NOPTS_VALUE ∧
    ffmpeg_total_time 0 = ffmpeg_total_time AV_NOPTS_VALUE ∧
    ffmpeg_total_time 999999 = ffmpeg_total_time AV_NOPTS_VALUE ∧
    ffmpeg_tag_time 0 = ffmpeg_tag_time AV_NOPTS_VALUE := by
  decide

theorem ffmpeg_decode_loop_running : ∀ turns : List decode_turn,
    (∀ u ∈ turns, 0 ≤ u.av_read_frame ∧ u.cmd ≠ DECODE_COMMAND_STOP) →
    ffmpeg_decode_loop turns = (calls_of turns, loop_exit.running)
  | [], _ => rfl
  | t :: rest, h => by
    have ht := h t (List.mem_cons_self _ _)
    have ih := ffmpeg_decode_loop_running rest (fun u hu => h u (List.mem_cons_of_mem _ hu))
    rw [ffmpeg_decode_loop, if_neg (by omega), if_pos ht.2, ih]
    rfl

theorem ffmpeg_decode_loop_append : ∀ (pre rest : List decode_turn),
    (∀ u ∈ pre, 0 ≤ u.av_read_frame ∧ u.cmd ≠ DECODE_COMMAND_STOP) →
    ffmpeg_decode_loop (pre ++ rest)
      = (calls_of pre ++ (ffmpeg_decode_loop rest).1, (ffmpeg_decode_loop rest).2)
  | [], rest, _ => rfl
  | t :: pre, rest, h => by
    have ht := h t (List.mem_cons_self _ _)
    have ih := ffmpeg_decode_loop_append pre rest
      (fun u hu => h u (List.mem_cons_of_mem _ hu))
    rw [List.cons_append, ffmpeg_decode_loop, if_neg (by omega), if_pos ht.2, ih]
    simp [calls_of]

theorem ffmpeg_decode_loop_exit : ∀ turns : List decode_turn,
    ((ffmpeg_decode_loop turns).2 = loop_exit.end_of_file →
      ∃ u ∈ turns, u.av_read_frame < 0) ∧
    ((ffmpeg_decode_loop turns).2 = loop_exit.stop →
      ∃ u ∈ turns, u.cmd = DECODE_COMMAND_STOP)
  | [] => by
    constructor <;> intro h <;> cases h
  | t :: rest => by
    have ih := ffmpeg_decode_loop_exit rest
    rw [ffmpeg_decode_loop]
    by_cases hr : t.av_read_frame < 0
    · rw [if_pos hr]
      exact ⟨fun _ => ⟨t, List.mem_cons_self _ _, hr⟩, fun h => by cases h⟩
    · rw [if_neg hr]
      by_cases hc : t.cmd = DECODE_COMMAND_STOP
      · rw [if_neg (not_not.mpr hc)]
        exact ⟨fun h => (by cases h), fun _ => ⟨t, List.mem_cons_self _ _, hc⟩⟩
      · rw [if_pos hc]
        constructor
        · intro h
          obtain ⟨u, hu, h2⟩ := ih.1 h
          exact ⟨u, List.mem_cons_of_mem _ hu, h2⟩
        · intro h
          obtain ⟨u, hu, h2⟩ := ih.2 h
          exact ⟨u, List.mem_cons_of_mem _ hu, h2⟩

/-- C20: in the main loop of `ffmpeg_decode`, a turn in which a Seek command is
observed makes exactly one call, `decoder_seek_error` when `av_seek_frame` fails
and `decoder_command_finished` when it succeeds, and after either the loop goes on
with the next turn as it would have without the seek; the loop is left only in a
turn in which `av_read_frame` fails or the command observed is Stop. -/
theorem ffmpeg_decode_seek (pre rest : List decode_turn) (t : decode_turn)
    (hpre : ∀ u ∈ pre, 0 ≤ u.av_read_frame ∧ u.cmd ≠ DECODE_COMMAND_STOP)
    (hread : 0 ≤ t.av_read_frame) (hseek : t.cmd = DECODE_COMMAND_SEEK) :
    ffmpeg_decode_loop (pre ++ t :: rest)
      = (calls_of pre
          ++ [if t.av_seek_frame < 0 then decode_call.decoder_seek_error
              else decode_call.decoder_command_finished]
          ++ (ffmpeg_decode_loop rest).1,
         (ffmpeg_decode_loop rest).2) ∧
    (∀ turns, (ffmpeg_decode_loop turns).2 ≠ loop_exit.running →
      ∃ u ∈ turns, u.av_read_frame < 0 ∨ u.cmd = DECODE_COMMAND_STOP) ∧
    (∀ turns, (∀ u ∈ turns, 0 ≤ u.av_read_frame ∧ u.cmd ≠ DECODE_COMMAND_STOP) →
      ffmpeg_decode_loop turns = (calls_of turns, loop_exit.running)) := by
  refine ⟨?_, fun turns h => ?_, ffmpeg_decode_loop_running⟩
  · rw [ffmpeg_decode_loop_append pre (t :: rest) hpre, ffmpeg_decode_loop,
      if_neg (by omega), if_pos (by rw [hseek]; decide)]
    have hs : seek_calls t = [if t.av_seek_frame < 0 then decode_call.decoder_seek_error
        else decode_call.decoder_command_finished] := by
      unfold seek_calls
      rw [if_pos hseek]
      split <;> rfl
    rw [hs]
    simp
  · cases he : (ffmpeg_decode_loop turns).2 with
    | end_of_file =>
      obtain ⟨u, hu, h2⟩ := (ffmpeg_decode_loop_exit turns).1 he
      exact ⟨u, hu, Or.inl h2⟩
    | stop =>
      obtain ⟨u, hu, h2⟩ := (ffmpeg_decode_loop_exit turns).2 he
      exact ⟨u, hu, Or.inr h2⟩
    | running => exact absurd he h

/-- Witness of C20: a Seek that fails in the second turn; the loop goes on,
answers the later Seek and is left at the Stop. -/
theorem ffmpeg_decode_seek_witness :
    (∀ u ∈ [turn_plain], 0 ≤ u.av_read_frame ∧ u.cmd ≠ DECODE_COMMAND_STOP) ∧
    0 ≤ turn_seek_failed.av_read_frame ∧
    turn_seek_failed.cmd = DECODE_COMMAND_SEEK ∧
    ffmpeg_decode_loop ([turn_plain] ++ turn_seek_failed :: turns_after)
      = (calls_of [turn_plain]
          ++ [if turn_seek_failed.av_seek_frame < 0 then decode_call.decoder_seek_error
              else decode_call.decoder_command_finished]
          ++ (ffmpeg_decode_loop turns_after).1,
         (ffmpeg_decode_loop turns_after).2) ∧
    (∀ turns, (ffmpeg_decode_loop turns).2 ≠ loop_exit.running →
      ∃ u ∈ turns, u.av_read_frame < 0 ∨ u.cmd = DECODE_COMMAND_STOP) ∧
    (∀ turns, (∀ u ∈ turns, 0 ≤ u.av_read_frame ∧ u.cmd ≠ DECODE_COMMAND_STOP) →
      ffmpeg_decode_loop turns = (calls_of turns, loop_exit.running)) :=
  ⟨by decide, by decide, rfl,
    ffmpeg_decode_seek [turn_plain] turns_after turn_seek_failed (by decide) (by decide) rfl⟩

theorem ffmpeg_decode_example :
    ffmpeg_decode_loop ([turn_plain] ++ turn_seek_failed :: turns_after)
      = ([decode_call.decoder_seek_error, decode_call.decoder_command_finished],
         loop_exit.stop) := by
  decide


/-! ## Theorems about the tables and the buffer alignment -/

theorem mime_types_joined_absent : ∀ m ∈ mime_types_joined, m ∉ ffmpeg_mime_types := by
  decide

theorem mime_types_joined_no_case_match :
    ∀ m ∈ mime_types_joined, ∀ e ∈ ffmpeg_mime_types, ascii_lower e ≠ ascii_lower m := by
  decide

/-- C21: the table `ffmpeg_mime_types` has three entries that are two MIME types
run together, because the comma after "audio/aiff", "audio/x-aiff" and
"audio/x-tta" is missing: these entries have two `/`, every other entry has one,
and none of the six MIME types written there is an entry of the table or is found
by a lookup that compares whole strings, with or without regard to ASCII case. -/
theorem ffmpeg_mime_types_joined :
    ffmpeg_mime_types.filter (fun e => slashes e != 1)
      = ["audio/aiffaudio/amr", "audio/x-aiffaudio/x-alaw", "audio/x-ttaaudio/x-voc"] ∧
    (∀ m ∈ mime_types_joined, m ∉ ffmpeg_mime_types) ∧
    mime_lookup (fun a b => a == b) ffmpeg_mime_types "audio/aiff" = false ∧
    mime_lookup (fun a b => a == b) ffmpeg_mime_types "audio/mpeg" = true ∧
    (∀ same : String → String → Bool,
      (∀ a b, same a b = true → ascii_lower a = ascii_lower b) →
      ∀ m ∈ mime_types_joined, mime_lookup same ffmpeg_mime_types m = false) := by
  refine ⟨by decide, mime_types_joined_absent, by decide, by decide, ?_⟩
  intro same hsame m hm
  cases h : mime_lookup same ffmpeg_mime_types m with
  | false => rfl
  | true =>
    unfold mime_lookup at h
    obtain ⟨e, he, hs⟩ := List.any_eq_true.mp h
    exact absurd (hsame e m hs) (mime_types_joined_no_case_match m hm e he)

theorem pow_ge_32 (bits : Nat) (h : 5 ≤ bits) : 32 ≤ 2 ^ bits := by
  calc 32 = 2 ^ 5 := by norm_num
    _ ≤ 2 ^ bits := Nat.pow_le_pow_right (by norm_num) h

/-- C23: for an address `p` and a length `L >= 16` of a buffer that lies in the
address space (`p + L < 2 ^ bits`), `align16` returns an address `q` that is a
multiple of 16 with `p < q <= p + 16` and leaves the length `L - (q - p)`, so that
`q + L' = p + L`; for the buffer of `ffmpeg_send_packet` the length left is at
least `(AVCODEC_MAX_AUDIO_FRAME_SIZE * 3) / 2`. -/
theorem align16_spec (bits p L : Nat) (hL : 16 ≤ L) (hp : p + L < 2 ^ bits) :
    (align16 bits p L).1 % 16 = 0 ∧
    p < (align16 bits p L).1 ∧ (align16 bits p L).1 ≤ p + 16 ∧
    (align16 bits p L).2 + ((align16 bits p L).1 - p) = L ∧
    (align16 bits p L).1 + (align16 bits p L).2 = p + L ∧
    (∀ frame_size, L = audio_buf_size frame_size →
      (frame_size * 3) / 2 ≤ (align16 bits p L).2) := by
  have hb : 32 ≤ 2 ^ bits := by
    by_cases h5 : 5 ≤ bits
    · exact pow_ge_32 bits h5
    · have : 2 ^ bits ≤ 2 ^ 4 := Nat.pow_le_pow_right (by norm_num) (by omega)
      norm_num at this
      omega
  generalize hm : 2 ^ bits = m at hp hb
  have hpm : p % m = p := Nat.mod_eq_of_lt (by omega)
  have hadd : (16 + m - p % m % 16) % m = 16 - p % 16 := by
    rw [hpm]
    have h1 : 16 + m - p % 16 = (16 - p % 16) + m := by omega
    rw [h1, Nat.add_mod_right]
    exact Nat.mod_eq_of_lt (by omega)
  have hq : (align16 bits p L).1 = p + (16 - p % 16) := by
    simp only [align16, hm, hadd]
    exact Nat.mod_eq_of_lt (by omega)
  have hl : (align16 bits p L).2 = L - (16 - p % 16) := by
    simp only [align16, hm, hadd]
    rw [Nat.mod_eq_of_lt (show 16 - p % 16 < m by omega)]
    have h1 : L + m - (16 - p % 16) = (L - (16 - p % 16)) + m := by omega
    rw [h1, Nat.add_mod_right]
    exact Nat.mod_eq_of_lt (by omega)
  rw [hq, hl]
  refine ⟨by omega, by omega, by omega, by omega, by omega, ?_⟩
  intro frame_size hf
  unfold audio_buf_size at hf
  omega

/-- Witness of C23: the buffer of `ffmpeg_send_packet` for a frame size of 192000
at the address 4100 of a 32 bit address space. -/
theorem align16_spec_witness :
    16 ≤ audio_buf_size 192000 ∧ 4100 + audio_buf_size 192000 < 2 ^ 32 ∧
    (align16 32 4100 (audio_buf_size 192000)).1 % 16 = 0 ∧
    4100 < (align16 32 4100 (audio_buf_size 192000)).1 ∧
    (align16 32 4100 (audio_buf_size 192000)).1 ≤ 4100 + 16 ∧
    (align16 32 4100 (audio_buf_size 192000)).2
      + ((align16 32 4100 (audio_buf_size 192000)).1 - 4100) = audio_buf_size 192000 ∧
    (align16 32 4100 (audio_buf_size 192000)).1 + (align16 32 4100 (audio_buf_size 192000)).2
      = 4100 + audio_buf_size 192000 ∧
    (∀ frame_size, audio_buf_size 192000 = audio_buf_size frame_size →
      (frame_size * 3) / 2 ≤ (align16 32 4100 (audio_buf_size 192000)).2) :=
  ⟨by decide, by decide,
    align16_spec 32 4100 (audio_buf_size 192000) (by decide) (by decide)⟩

theorem align16_example : align16 32 4100 (audio_buf_size 192000) = (4112, 288004) := by
  decide

/-! ## Theorems about `playlist_list.c` -/

theorem getD_set_ne : ∀ (l : List Bool) (i j : Nat), i ≠ j →
    (l.set i true).getD j false = l.getD j false
  | [], _, _, _ => rfl
  | _ :: _, 0, 0, h => absurd rfl h
  | _ :: _, 0, _ + 1, _ => rfl
  | _ :: _, _ + 1, 0, _ => rfl
  | _ :: l, i + 1, j + 1, h => by
    simp only [List.set_cons_succ, List.getD_cons_succ]
    exact getD_set_ne l i j (by omega)

theorem getD_set_eq : ∀ (l : List Bool) (i : Nat), i < l.length →
    (l.set i true).getD i false = true
  | [], _, h => by simp at h
  | _ :: _, 0, _ => rfl
  | _ :: l, i + 1, h => by
    simp only [List.set_cons_succ, List.getD_cons_succ]
    exact getD_set_eq l i (by simpa using h)

theorem open_uri_scheme_loop_spec (env : playlist_env) (scheme uri : String) :
    ∀ (ps : List playlist_plugin) (i : Nat) (st : open_uri_state),
    (∀ j, i ≤ j → st.tried.getD j false = false) →
    i + ps.length ≤ st.tried.length →
    ∃ r st' o ix, open_uri_scheme_loop env scheme uri ps i st = .ok (r, st') ∧
      r = first_opening (matches_scheme env scheme) uri ps i ∧
      st'.tried.length = st.tried.length ∧
      st'.opened = st.opened ++ o ∧ st'.indexed = st.indexed ++ ix ∧
      (∀ j ∈ o, i ≤ j ∧ j < i + ps.length) ∧ o.Nodup ∧
      (∀ j ∈ ix, i ≤ j ∧ j < i + ps.length) ∧
      (∀ j, j < i → st'.tried.getD j false = st.tried.getD j false) ∧
      (r = none → ∀ j ∈ o, st'.tried.getD j false = true) ∧
      (∀ k p, ps[k]? = some p → st'.tried.getD (i + k) false = true →
        playlist_plugin_open_uri p uri = none)
  | [], i, st, _, _ =>
    ⟨none, st, [], [], rfl, rfl, rfl, by simp, by simp, by simp, List.nodup_nil, by simp,
      fun _ _ => rfl, by simp, by simp⟩
  | plugin :: rest, i, st, hfalse, hlen => by
    have hi : st.tried.getD i false = false := hfalse i (le_refl i)
    have hi' : ¬ st.tried.getD i false = true := by
      rw [hi]
      decide
    have hlen' : i + 1 + rest.length ≤ st.tried.length := by
      simp only [List.length_cons] at hlen
      omega
    by_cases hm : matches_scheme env scheme i plugin = true
    · cases ho : playlist_plugin_open_uri plugin uri with
      | some playlist =>
        refine ⟨some playlist, ⟨st.tried, st.opened ++ [i], st.indexed ++ [i]⟩, [i], [i],
          ?_, ?_, rfl, rfl, rfl, ?_, List.nodup_singleton i, ?_, fun _ _ => rfl, ?_, ?_⟩
        · rw [open_uri_scheme_loop, if_neg hi', if_pos hm]
          simp only [ho]
        · rw [first_opening]
          simp [hm, ho]
        · intro j hj
          simp only [List.mem_singleton] at hj
          simp only [List.length_cons]
          omega
        · intro j hj
          simp only [List.mem_singleton] at hj
          simp only [List.length_cons]
          omega
        · intro h
          cases h
        · intro k p _ ht
          rw [hfalse (i + k) (by omega)] at ht
          cases ht
      | none =>
        obtain ⟨r, st', o, ix, h1, h2, h3, h4, h5, h6, h7, h8, h9, h10, h11⟩ :=
          open_uri_scheme_loop_spec env scheme uri rest (i + 1)
            ⟨st.tried.set i true, st.opened ++ [i], st.indexed ++ [i, i]⟩
            (fun j hj => by
              show (st.tried.set i true).getD j false = false
              rw [getD_set_ne st.tried i j (by omega)]
              exact hfalse j (by omega))
            (by simpa using hlen')
        have hti : st'.tried.getD i false = true := by
          rw [h9 i (by omega)]
          exact getD_set_eq st.tried i (by omega)
        refine ⟨r, st', i :: o, [i, i] ++ ix, ?_, ?_, ?_, ?_, ?_, ?_, ?_, ?_, ?_, ?_, ?_⟩
        · rw [open_uri_scheme_loop, if_neg hi', if_pos hm]
          simp only [ho]
          exact h1
        · rw [first_opening]
          simp [hm, ho, h2]
        · rw [h3]
          simp
        · rw [h4]
          simp
        · rw [h5]
          simp
        · intro j hj
          simp only [List.length_cons]
          rcases List.mem_cons.mp hj with h | h
          · omega
          · have := h6 j h
            omega
        · refine List.nodup_cons.mpr ⟨fun h => ?_, h7⟩
          have := h6 i h
          omega
        · intro j hj
          simp only [List.length_cons]
          simp only [List.cons_append, List.nil_append, List.mem_cons] at hj
          rcases hj with h | h | h
          · omega
          · omega
          · have := h8 j h
            omega
        · intro j hj
          rw [h9 j (by omega)]
          exact getD_set_ne st.tried i j (by omega)
        · intro hr j hj
          rcases List.mem_cons.mp hj with h | h
          · rw [h]
            exact hti
          · exact h10 hr j h
        · intro k p hk ht
          cases k with
          | zero =>
            simp only [List.getElem?_cons_zero, Option.some.injEq] at hk
            rw [← hk]
            exact ho
          | succ k =>
            simp only [List.getElem?_cons_succ] at hk
            exact h11 k p hk (by rw [show i + 1 + k = i + (k + 1) by omega]; exact ht)
    · obtain ⟨r, st', o, ix, h1, h2, h3, h4, h5, h6, h7, h8, h9, h10, h11⟩ :=
        open_uri_scheme_loop_spec env scheme uri rest (i + 1)
          ⟨st.tried, st.opened, st.indexed ++ [i]⟩
          (fun j hj => hfalse j (by omega)) hlen'
      refine ⟨r, st', o, [i] ++ ix, ?_, ?_, h3, h4, ?_, ?_, h7, ?_, ?_, h10, ?_⟩
      · rw [open_uri_scheme_loop, if_neg hi', if_neg hm]
        exact h1
      · rw [first_opening]
        simp [hm, h2]
      · rw [h5]
        simp
      · intro j hj
        simp only [List.length_cons]
        have := h6 j hj
        omega
      · intro j hj
        simp only [List.length_cons]
        simp only [List.cons_append, List.nil_append, List.mem_cons] at hj
        rcases hj with h | h
        · omega
        · have := h8 j h
          omega
      · intro j hj
        exact h9 j (by omega)
      · intro k p hk ht
        cases k with
        | zero =>
          rw [Nat.add_zero, h9 i (by omega)] at ht
          rw [show (⟨st.tried, st.opened, st.indexed ++ [i]⟩ : open_uri_state).tried
            = st.tried from rfl, hi] at ht
          cases ht
        | succ k =>
          simp only [List.getElem?_cons_succ] at hk
          exact h11 k p hk (by rw [show i + 1 + k = i + (k + 1) by omega]; exact ht)

theorem open_uri_suffix_loop_spec (env : playlist_env) (suffix uri : String) :
    ∀ (ps : List playlist_plugin) (i : Nat) (st : open_uri_state),
    ∃ o ix, (open_uri_suffix_loop env suffix uri ps i st).2.tried = st.tried ∧
      (open_uri_suffix_loop env suffix uri ps i st).2.opened = st.opened ++ o ∧
      (open_uri_suffix_loop env suffix uri ps i st).2.indexed = st.indexed ++ ix ∧
      (open_uri_suffix_loop env suffix uri ps i st).1
        = first_opening (fun j p => !st.tried.getD j false && matches_suffix env suffix j p)
            uri ps i ∧
      (∀ j ∈ o, i ≤ j ∧ j < i + ps.length ∧ st.tried.getD j false = false) ∧ o.Nodup ∧
      (∀ j ∈ ix, i ≤ j ∧ j < i + ps.length)
  | [], i, st => ⟨[], [], rfl, by simp [open_uri_suffix_loop],
      by simp [open_uri_suffix_loop], rfl, by simp, List.nodup_nil, by simp⟩
  | plugin :: rest, i, st => by
    by_cases he : env.playlist_plugins_enabled i = true
    · by_cases hm : (!st.tried.getD i false && matches_suffix env suffix i plugin) = true
      · have ht : st.tried.getD i false = false := by
          cases h : st.tried.getD i false with
          | false => rfl
          | true => rw [h] at hm; simp at hm
        cases ho : playlist_plugin_open_uri plugin uri with
        | some playlist =>
          have hl : open_uri_suffix_loop env suffix uri (plugin :: rest) i st
              = (some playlist, ⟨st.tried, st.opened ++ [i], st.indexed ++ [i]⟩) := by
            rw [open_uri_suffix_loop, if_pos he, if_pos hm]
            simp only [ho]
          rw [hl]
          refine ⟨[i], [i], rfl, rfl, rfl, ?_, ?_, List.nodup_singleton i, ?_⟩
          · rw [first_opening, if_pos hm]
            simp only [ho]
          · intro j hj
            simp only [List.mem_singleton] at hj
            simp only [List.length_cons]
            subst hj
            exact ⟨le_refl _, by omega, ht⟩
          · intro j hj
            simp only [List.mem_singleton] at hj
            simp only [List.length_cons]
            omega
        | none =>
          obtain ⟨o, ix, h1, h2, h3, h4, h5, h6, h7⟩ :=
            open_uri_suffix_loop_spec env suffix uri rest (i + 1)
              ⟨st.tried, st.opened ++ [i], st.indexed ++ [i]⟩
          have hl : open_uri_suffix_loop env suffix uri (plugin :: rest) i st
              = open_uri_suffix_loop env suffix uri rest (i + 1)
                  ⟨st.tried, st.opened ++ [i], st.indexed ++ [i]⟩ := by
            rw [open_uri_suffix_loop, if_pos he, if_pos hm]
            simp only [ho]
          rw [hl]
          refine ⟨i :: o, i :: ix, h1, ?_, ?_, ?_, ?_, ?_, ?_⟩
          · rw [h2]
            simp
          · rw [h3]
            simp
          · rw [h4, first_opening, if_pos hm]
            simp only [ho]
          · intro j hj
            simp only [List.length_cons]
            rcases List.mem_cons.mp hj with h | h
            · subst h
              exact ⟨le_refl _, by omega, ht⟩
            · have := h5 j h
              exact ⟨by omega, by omega, this.2.2⟩
          · refine List.nodup_cons.mpr ⟨fun h => ?_, h6⟩
            have := h5 i h
            omega
          · intro j hj
            simp only [List.length_cons]
            rcases List.mem_cons.mp hj with h | h
            · omega
            · have := h7 j h
              omega
      · obtain ⟨o, ix, h1, h2, h3, h4, h5, h6, h7⟩ :=
          open_uri_suffix_loop_spec env suffix uri rest (i + 1)
            ⟨st.tried, st.opened, st.indexed ++ [i]⟩
        have hl : open_uri_suffix_loop env suffix uri (plugin :: rest) i st
            = open_uri_suffix_loop env suffix uri rest (i + 1)
                ⟨st.tried, st.opened, st.indexed ++ [i]⟩ := by
          rw [open_uri_suffix_loop, if_pos he, if_neg hm]
        rw [hl]
        refine ⟨o, i :: ix, h1, h2, ?_, ?_, ?_, h6, ?_⟩
        · rw [h3]
          simp
        · rw [h4, first_opening, if_neg hm]
        · intro j hj
          simp only [List.length_cons]
          have := h5 j hj
          exact ⟨by omega, by omega, this.2.2⟩
        · intro j hj
          simp only [List.length_cons]
          rcases List.mem_cons.mp hj with h | h
          · omega
          · have := h7 j h
            omega
    · obtain ⟨o, ix, h1, h2, h3, h4, h5, h6, h7⟩ :=
        open_uri_suffix_loop_spec env suffix uri rest (i + 1) st
      have hm : ¬ (!st.tried.getD i false && matches_suffix env suffix i plugin) = true := by
        have : env.playlist_plugins_enabled i = false := by
          cases h : env.playlist_plugins_enabled i with
          | false => rfl
          | true => exact absurd h he
        simp [matches_suffix, this]
      have hl : open_uri_suffix_loop env suffix uri (plugin :: rest) i st
          = open_uri_suffix_loop env suffix uri rest (i + 1) st := by
        rw [open_uri_suffix_loop, if_neg he]
      rw [hl]
      refine ⟨o, ix, h1, h2, h3, ?_, ?_, h6, ?_⟩
      · rw [h4, first_opening, if_neg hm]
      · intro j hj
        simp only [List.length_cons]
        have := h5 j hj
        exact ⟨by omega, by omega, this.2.2⟩
      · intro j hj
        simp only [List.length_cons]
        have := h7 j hj
        omega

theorem first_opening_skip_tried (ok : Nat → playlist_plugin → Bool) (uri : String)
    (tried : List Bool) : ∀ (ps : List playlist_plugin) (i : Nat),
    (∀ k p, ps[k]? = some p → tried.getD (i + k) false = true →
      playlist_plugin_open_uri p uri = none) →
    first_opening (fun j p => !tried.getD j false && ok j p) uri ps i
      = first_opening ok uri ps i
  | [], _, _ => rfl
  | plugin :: rest, i, h => by
    have ih := first_opening_skip_tried ok uri tried rest (i + 1) (fun k p hk ht =>
      h (k + 1) p (by simpa using hk) (by rw [show i + (k + 1) = i + 1 + k by omega]; exact ht))
    rw [first_opening, first_opening, ih]
    cases ht : tried.getD i false with
    | false => simp
    | true =>
      have ho := h 0 plugin (by simp) (by simpa using ht)
      simp [ho]

theorem getD_replicate_false : ∀ (n j : Nat), (List.replicate n false).getD j false = false
  | 0, _ => rfl
  | _ + 1, 0 => rfl
  | n + 1, j + 1 => by
    rw [List.replicate_succ, List.getD_cons_succ]
    exact getD_replicate_false n j

theorem playlist_list_open_uri_scheme_spec (env : playlist_env) (uri : String) :
    ∃ r st1, playlist_list_open_uri_scheme env uri
        ⟨List.replicate env.playlist_plugins.length false, [], []⟩ = .ok (r, st1) ∧
      r = (match env.g_uri_parse_scheme uri with
        | some scheme => first_opening (matches_scheme env scheme) uri env.playlist_plugins 0
        | none => none) ∧
      st1.tried.length = env.playlist_plugins.length ∧
      st1.opened.Nodup ∧
      (∀ j ∈ st1.opened, j < env.playlist_plugins.length) ∧
      (∀ j ∈ st1.indexed, j < env.playlist_plugins.length) ∧
      (r = none → ∀ j ∈ st1.opened, st1.tried.getD j false = true) ∧
      (∀ k p, env.playlist_plugins[k]? = some p → st1.tried.getD k false = true →
        playlist_plugin_open_uri p uri = none) := by
  unfold playlist_list_open_uri_scheme
  cases hs : env.g_uri_parse_scheme uri with
  | none =>
    refine ⟨none, _, rfl, rfl, by simp, List.nodup_nil, by simp, by simp, by simp, ?_⟩
    intro k p _ ht
    rw [getD_replicate_false] at ht
    cases ht
  | some scheme =>
    obtain ⟨r, st', o, ix, h1, h2, h3, h4, h5, h6, h7, h8, _, h10, h11⟩ :=
      open_uri_scheme_loop_spec env scheme uri env.playlist_plugins 0
        ⟨List.replicate env.playlist_plugins.length false, [], []⟩
        (fun j _ => getD_replicate_false _ j) (by simp)
    refine ⟨r, st', h1, h2, ?_, ?_, ?_, ?_, ?_, ?_⟩
    · rw [h3]
      simp
    · rw [h4]
      simpa using h7
    · intro j hj
      rw [h4] at hj
      have := h6 j (by simpa using hj)
      omega
    · intro j hj
      rw [h5] at hj
      have := h8 j (by simpa using hj)
      omega
    · intro hr j hj
      rw [h4] at hj
      exact h10 hr j (by simpa using hj)
    · intro k p hk ht
      exact h11 k p hk (by simpa using ht)

theorem playlist_list_open_uri_suffix_spec (env : playlist_env) (uri : String)
    (st : open_uri_state)
    (hfailed : ∀ k p, env.playlist_plugins[k]? = some p → st.tried.getD k false = true →
      playlist_plugin_open_uri p uri = none) :
    ∃ o ix, (playlist_list_open_uri_suffix env uri st).2.tried = st.tried ∧
      (playlist_list_open_uri_suffix env uri st).2.opened = st.opened ++ o ∧
      (playlist_list_open_uri_suffix env uri st).2.indexed = st.indexed ++ ix ∧
      (playlist_list_open_uri_suffix env uri st).1 = (match env.uri_get_suffix uri with
        | some suffix => first_opening (matches_suffix env suffix) uri env.playlist_plugins 0
        | none => none) ∧
      (∀ j ∈ o, j < env.playlist_plugins.length ∧ st.tried.getD j false = false) ∧
      o.Nodup ∧ (∀ j ∈ ix, j < env.playlist_plugins.length) := by
  unfold playlist_list_open_uri_suffix
  cases hs : env.uri_get_suffix uri with
  | none => exact ⟨[], [], rfl, by simp, by simp, rfl, by simp, List.nodup_nil, by simp⟩
  | some suffix =>
    obtain ⟨o, ix, h1, h2, h3, h4, h5, h6, h7⟩ :=
      open_uri_suffix_loop_spec env suffix uri env.playlist_plugins 0 st
    refine ⟨o, ix, h1, h2, h3, ?_, ?_, h6, ?_⟩
    · simp only []
      rw [h4]
      exact first_opening_skip_tried (matches_suffix env suffix) uri st.tried
        env.playlist_plugins 0 (fun k p hk ht => hfailed k p hk (by simpa using ht))
    · intro j hj
      have := h5 j hj
      exact ⟨by omega, this.2.2⟩
    · intro j hj
      have := h7 j hj
      omega

/-- C22: one call of `playlist_list_open_uri` returns, without fault, the provider
of the first enabled plugin that matches the scheme and opens the URI, otherwise
of the first that matches the suffix and opens it, otherwise NULL; no plugin's
`open_uri` is invoked twice; every index used on `tried` is below the number of
plugins, which is the length of `tried`; when the scheme pass returns a provider,
the call returns it with nothing invoked after that pass, and otherwise every
plugin invoked in the suffix pass is one that is not marked in `tried`, while
every plugin invoked in the scheme pass is marked. -/
theorem playlist_list_open_uri_once (env : playlist_env) (uri : String) :
    ∃ playlist st r1 st1 o2,
      playlist_list_open_uri env uri = .ok (playlist, st) ∧
      playlist = playlist_list_open_uri_spec env uri ∧
      st.opened.Nodup ∧
      (∀ j ∈ st.opened, j < env.playlist_plugins.length) ∧
      (∀ j ∈ st.indexed, j < env.playlist_plugins.length) ∧
      st.tried.length = env.playlist_plugins.length ∧
      playlist_list_open_uri_scheme env uri
        ⟨List.replicate env.playlist_plugins.length false, [], []⟩ = .ok (r1, st1) ∧
      (r1 ≠ none → playlist = r1 ∧ st = st1) ∧
      (r1 = none →
        st.opened = st1.opened ++ o2 ∧
        (∀ j ∈ st1.opened, st1.tried.getD j false = true) ∧
        (∀ j ∈ o2, st1.tried.getD j false = false ∧ j ∉ st1.opened)) := by
  obtain ⟨r1, st1, h1, h2, h3, h4, h5, h6, h7, h8⟩ :=
    playlist_list_open_uri_scheme_spec env uri
  cases hr : r1 with
  | some playlist =>
    subst hr
    refine ⟨some playlist, st1, some playlist, st1, [], ?_, ?_, h4, h5, h6, h3, h1,
      fun _ => ⟨rfl, rfl⟩, fun h => by cases h⟩
    · unfold playlist_list_open_uri
      rw [h1]
    · unfold playlist_list_open_uri_spec
      rw [← h2]
  | none =>
    subst hr
    obtain ⟨o, ix, g1, g2, g3, g4, g5, g6, g7⟩ :=
      playlist_list_open_uri_suffix_spec env uri st1 h8
    have hdisj : ∀ j ∈ o, st1.tried.getD j false = false ∧ j ∉ st1.opened := by
      intro j hj
      refine ⟨(g5 j hj).2, fun hin => ?_⟩
      have := h7 rfl j hin
      rw [(g5 j hj).2] at this
      cases this
    refine ⟨(playlist_list_open_uri_suffix env uri st1).1,
      (playlist_list_open_uri_suffix env uri st1).2, none, st1, o, ?_, ?_, ?_, ?_, ?_, ?_, h1,
      fun h => absurd rfl h, fun _ => ⟨g2, h7 rfl, hdisj⟩⟩
    · unfold playlist_list_open_uri
      rw [h1]
    · unfold playlist_list_open_uri_spec
      rw [← h2, g4]
    · rw [g2]
      exact List.nodup_append.mpr ⟨h4, g6, fun j hj1 hj2 => (hdisj j hj2).2 hj1⟩
    · intro j hj
      rw [g2] at hj
      rcases List.mem_append.mp hj with h | h
      · exact h5 j h
      · exact (g5 j h).1
    · intro j hj
      rw [g3] at hj
      rcases List.mem_append.mp hj with h | h
      · exact h6 j h
      · exact g7 j h
    · rw [g1]
      exact h3

theorem playlist_list_open_uri_example :
    playlist_list_open_uri playlist_env_example "http://host/list.m3u"
      = .ok (some 7, ⟨[true, false], [0, 1], [0, 0, 1, 0, 1]⟩) ∧
    playlist_list_open_uri_spec playlist_env_example "http://host/list.m3u" = some 7 := by
  decide

/-- Witness of C22: a URI with the scheme `http` and the suffix `m3u`, a plugin for
the scheme that fails to open it and claims the suffix too, and a plugin for the
suffix that opens it. -/
theorem playlist_list_open_uri_once_witness :
    ∃ playlist st r1 st1 o2,
      playlist_list_open_uri playlist_env_example "http://host/list.m3u"
        = .ok (playlist, st) ∧
      playlist = playlist_list_open_uri_spec playlist_env_example "http://host/list.m3u" ∧
      st.opened.Nodup ∧
      (∀ j ∈ st.opened, j < playlist_env_example.playlist_plugins.length) ∧
      (∀ j ∈ st.indexed, j < playlist_env_example.playlist_plugins.length) ∧
      st.tried.length = playlist_env_example.playlist_plugins.length ∧
      playlist_list_open_uri_scheme playlist_env_example "http://host/list.m3u"
        ⟨List.replicate playlist_env_example.playlist_plugins.length false, [], []⟩
        = .ok (r1, st1) ∧
      (r1 ≠ none → playlist = r1 ∧ st = st1) ∧
      (r1 = none →
        st.opened = st1.opened ++ o2 ∧
        (∀ j ∈ st1.opened, st1.tried.getD j false = true) ∧
        (∀ j ∈ o2, st1.tried.getD j false = false ∧ j ∉ st1.opened)) :=
  playlist_list_open_uri_once playlist_env_example "http://host/list.m3u"

end MPD
